import Mathlib

/-!
# lunatic: ARM instruction decoder, translator entry and dispatch loop

A shallow embedding of `src/frontend/decode/arm.hpp` (the ARM decoder of the
lunatic dynamic recompiler), of `src/frontend/translator/translator.cpp` and
of `src/jit.cpp`, together with theorems about them.

Conventions of the embedding:

* a `u32` is a natural number below `2 ^ 32`; arithmetic that the source
  performs on `u32` values is reduced modulo `2 ^ 32` explicitly;
* an `s32` is an integer; `s32` is the two's complement reinterpretation;
* a C `int` is an integer; the sums and differences `Run` computes with the
  cycle budget are wrapped to 32 bits by `int_wrap`;
* the enumerations `Condition`, `GPR`, `Shift`, `Mode` and
  `ARMDataProcessing::Opcode` are produced in the source by casting a bit
  field, and are carried here as the underlying field value;
* the decode client (a class with one overloaded `Handle` per descriptor and
  an `Undefined` member) is a record of functions, one field per overload;
* member functions that change the object they belong to take the object and
  return the changed object; collaborators whose code is outside the files
  under study are parameters.
-/

namespace lunatic

/-! ## Bit helpers (`common/bit.hpp`) -/

namespace bit

/-- Modelled from the spec: `bit::get_field(value, lowest_bit, count)` of
`common/bit.hpp`, the `count`-bit field of `value` that starts at bit
`lowest_bit` (the spec's `word[hi..lo]`): the value shifted right and masked
with `count` low one-bits. -/
def get_field (value lowest_bit count : Nat) : Nat :=
  (value >>> lowest_bit) &&& (2 ^ count - 1)

/-- Modelled from the spec: `bit::get_bit(value, bit)` of `common/bit.hpp`,
the single bit of `value` at position `bit`, as the integer 0 or 1. -/
def get_bit (value bit : Nat) : Nat :=
  (value >>> bit) &&& 1

/-- Modelled from the spec: `bit::get_bit<u32, bool>(value, bit)` of
`common/bit.hpp`, the single bit converted to `bool`. -/
def get_flag (value bit : Nat) : Bool :=
  get_bit value bit != 0

/-- Modelled from the spec: `bit::rotate_right(value, amount)` of
`common/bit.hpp` on 32-bit values (the spec's `rotate_right`): the bits
shifted out on the right re-enter on the left. -/
def rotate_right (value amount : Nat) : Nat :=
  let n := amount % 32
  ((value >>> n) ||| (value <<< (32 - n))) % 2 ^ 32

end bit

/-- Reinterpretation of a `u32` as an `s32` (the cast `s32(offset)`). -/
def s32 (x : Nat) : Int :=
  if x % 2 ^ 32 < 2 ^ 31 then ((x % 2 ^ 32 : Nat) : Int) else ((x % 2 ^ 32 : Nat) : Int) - 2 ^ 32

/-- The signed value of a 24-bit field whose top bit (bit 23) is the sign: the
`sign_extend` of the branch-offset rule, against which the decoder's `u32`
computation is compared. -/
def sign_extend_24 (x : Nat) : Int :=
  if x % 2 ^ 24 < 2 ^ 23 then ((x % 2 ^ 24 : Nat) : Int) else ((x % 2 ^ 24 : Nat) : Int) - 2 ^ 24

/-! ## Enumerations -/

/-- The 4-bit condition code, carried as its encoding. -/
abbrev Condition := Nat

/-- Modelled from the spec: the `AL` (always) condition, encoding `0b1110`;
the enumeration is declared outside the decoder. -/
abbrev Condition.AL : Condition := 14

/-- Modelled from the spec: the `NV` condition, encoding `0b1111`, used for
unconditional encodings; the enumeration is declared outside the decoder. -/
abbrev Condition.NV : Condition := 15

/-- A general-purpose register index. -/
abbrev GPR := Nat

/-- The shift kind (LSL, LSR, ASR, ROR), carried as its 2-bit encoding. -/
abbrev Shift := Nat

/-- Modelled from the spec: the ARM data-processing opcode `MOV`, encoding
`0b1101`; the enumeration `ARMDataProcessing::Opcode` is declared outside the
decoder. -/
abbrev Opcode.MOV : Nat := 13

/-- The exception kinds carried by `ARMException`. -/
inductive Exception where
  | Supervisor
  deriving DecidableEq, Repr

/-! ## Descriptors (`definition/*.hpp`), with the field names the decoder uses -/

structure ARMDataProcessing.ShiftOp where
  type : Shift
  immediate : Bool
  amount_reg : GPR
  amount_imm : Nat
  deriving DecidableEq, Repr

structure ARMDataProcessing.Op2Reg where
  reg : GPR
  shift : ARMDataProcessing.ShiftOp
  deriving DecidableEq, Repr

structure ARMDataProcessing.Op2Imm where
  value : Nat
  shift : Nat
  deriving DecidableEq, Repr

structure ARMDataProcessing where
  condition : Condition
  opcode : Nat
  immediate : Bool
  set_flags : Bool
  reg_dst : GPR
  reg_op1 : GPR
  op2_reg : ARMDataProcessing.Op2Reg
  op2_imm : ARMDataProcessing.Op2Imm
  deriving DecidableEq, Repr

structure ARMMoveStatusRegister where
  condition : Condition
  immediate : Bool
  spsr : Bool
  fsxc : Nat
  reg : GPR
  imm : Nat
  deriving DecidableEq, Repr

structure ARMMoveRegisterStatus where
  condition : Condition
  spsr : Bool
  reg : GPR
  deriving DecidableEq, Repr

structure ARMMultiply where
  condition : Condition
  accumulate : Bool
  set_flags : Bool
  reg_op1 : GPR
  reg_op2 : GPR
  reg_op3 : GPR
  reg_dst : GPR
  deriving DecidableEq, Repr

structure ARMMultiplyLong where
  condition : Condition
  sign_extend : Bool
  accumulate : Bool
  set_flags : Bool
  reg_op1 : GPR
  reg_op2 : GPR
  reg_dst_lo : GPR
  reg_dst_hi : GPR
  deriving DecidableEq, Repr

structure ARMSingleDataSwap where
  condition : Condition
  byte : Bool
  reg_src : GPR
  reg_dst : GPR
  reg_base : GPR
  deriving DecidableEq, Repr

structure ARMBranchExchange where
  condition : Condition
  reg : GPR
  link : Bool
  deriving DecidableEq, Repr

structure ARMHalfwordSignedTransfer where
  condition : Condition
  pre_increment : Bool
  add : Bool
  immediate : Bool
  writeback : Bool
  load : Bool
  opcode : Nat
  reg_dst : GPR
  reg_base : GPR
  offset_imm : Nat
  offset_reg : GPR
  deriving DecidableEq, Repr

structure ARMSingleDataTransfer.OffsetReg where
  reg : GPR
  shift : Shift
  amount : Nat
  deriving DecidableEq, Repr

structure ARMSingleDataTransfer where
  condition : Condition
  immediate : Bool
  pre_increment : Bool
  add : Bool
  byte : Bool
  writeback : Bool
  load : Bool
  reg_dst : GPR
  reg_base : GPR
  offset_imm : Nat
  offset_reg : ARMSingleDataTransfer.OffsetReg
  deriving DecidableEq, Repr

structure ARMBlockDataTransfer where
  condition : Condition
  pre_increment : Bool
  add : Bool
  user_mode : Bool
  writeback : Bool
  load : Bool
  reg_base : GPR
  reg_list : Nat
  deriving DecidableEq, Repr

structure ARMBranchRelative where
  condition : Condition
  offset : Int
  link : Bool
  exchange : Bool
  deriving DecidableEq, Repr

structure ARMCoprocessorRegisterTransfer where
  condition : Condition
  load : Bool
  reg_dst : GPR
  coprocessor_id : Nat
  opcode1 : Nat
  cn : Nat
  cm : Nat
  opcode2 : Nat
  deriving DecidableEq, Repr

structure ARMException where
  condition : Condition
  exception : Exception
  svc_comment : Nat
  deriving DecidableEq, Repr

structure ARMCountLeadingZeros where
  condition : Condition
  reg_src : GPR
  reg_dst : GPR
  deriving DecidableEq, Repr

structure ARMSaturatingAddSub where
  condition : Condition
  subtract : Bool
  double_rhs : Bool
  reg_dst : GPR
  reg_lhs : GPR
  reg_rhs : GPR
  deriving DecidableEq, Repr

structure ARMSignedHalfwordMultiply where
  condition : Condition
  accumulate : Bool
  x : Bool
  y : Bool
  reg_dst : GPR
  reg_lhs : GPR
  reg_rhs : GPR
  reg_op3 : GPR
  deriving DecidableEq, Repr

structure ARMSignedWordHalfwordMultiply where
  condition : Condition
  accumulate : Bool
  y : Bool
  reg_dst : GPR
  reg_lhs : GPR
  reg_rhs : GPR
  reg_op3 : GPR
  deriving DecidableEq, Repr

structure ARMSignedHalfwordMultiplyAccumulateLong where
  condition : Condition
  x : Bool
  y : Bool
  reg_dst_hi : GPR
  reg_dst_lo : GPR
  reg_lhs : GPR
  reg_rhs : GPR
  deriving DecidableEq, Repr

/-! ## The decode client -/

/-- Receives decoded opcode data: one field per `Handle` overload of
`ARMDecodeClient<T>` that the ARM decoder calls, and `Undefined`. (The
overload for `ThumbBranchLinkSuffix` is never called by `decode_arm` and its
descriptor is declared outside the decoder; it is not part of the record.) -/
structure ARMDecodeClient (T : Type) where
  HandleDataProcessing : ARMDataProcessing → T
  HandleMoveStatusRegister : ARMMoveStatusRegister → T
  HandleMoveRegisterStatus : ARMMoveRegisterStatus → T
  HandleMultiply : ARMMultiply → T
  HandleMultiplyLong : ARMMultiplyLong → T
  HandleSingleDataSwap : ARMSingleDataSwap → T
  HandleBranchExchange : ARMBranchExchange → T
  HandleHalfwordSignedTransfer : ARMHalfwordSignedTransfer → T
  HandleSingleDataTransfer : ARMSingleDataTransfer → T
  HandleBlockDataTransfer : ARMBlockDataTransfer → T
  HandleBranchRelative : ARMBranchRelative → T
  HandleCoprocessorRegisterTransfer : ARMCoprocessorRegisterTransfer → T
  HandleException : ARMException → T
  HandleCountLeadingZeros : ARMCountLeadingZeros → T
  HandleSaturatingAddSub : ARMSaturatingAddSub → T
  HandleSignedHalfwordMultiply : ARMSignedHalfwordMultiply → T
  HandleSignedWordHalfwordMultiply : ARMSignedWordHalfwordMultiply → T
  HandleSignedHalfwordMultiplyAccumulateLong : ARMSignedHalfwordMultiplyAccumulateLong → T
  Undefined : Nat → T

/-- What the decoder delivered to its client: the descriptor passed to
`Handle`, or the word passed to `Undefined`. -/
inductive Decoded where
  | DataProcessing (d : ARMDataProcessing)
  | MoveStatusRegister (d : ARMMoveStatusRegister)
  | MoveRegisterStatus (d : ARMMoveRegisterStatus)
  | Multiply (d : ARMMultiply)
  | MultiplyLong (d : ARMMultiplyLong)
  | SingleDataSwap (d : ARMSingleDataSwap)
  | BranchExchange (d : ARMBranchExchange)
  | HalfwordSignedTransfer (d : ARMHalfwordSignedTransfer)
  | SingleDataTransfer (d : ARMSingleDataTransfer)
  | BlockDataTransfer (d : ARMBlockDataTransfer)
  | BranchRelative (d : ARMBranchRelative)
  | CoprocessorRegisterTransfer (d : ARMCoprocessorRegisterTransfer)
  | Exception (d : ARMException)
  | CountLeadingZeros (d : ARMCountLeadingZeros)
  | SaturatingAddSub (d : ARMSaturatingAddSub)
  | SignedHalfwordMultiply (d : ARMSignedHalfwordMultiply)
  | SignedWordHalfwordMultiply (d : ARMSignedWordHalfwordMultiply)
  | SignedHalfwordMultiplyAccumulateLong (d : ARMSignedHalfwordMultiplyAccumulateLong)
  | Undefined (opcode : Nat)
  deriving DecidableEq, Repr

/-- The client that returns what it was handed. -/
def recorder : ARMDecodeClient Decoded where
  HandleDataProcessing := Decoded.DataProcessing
  HandleMoveStatusRegister := Decoded.MoveStatusRegister
  HandleMoveRegisterStatus := Decoded.MoveRegisterStatus
  HandleMultiply := Decoded.Multiply
  HandleMultiplyLong := Decoded.MultiplyLong
  HandleSingleDataSwap := Decoded.SingleDataSwap
  HandleBranchExchange := Decoded.BranchExchange
  HandleHalfwordSignedTransfer := Decoded.HalfwordSignedTransfer
  HandleSingleDataTransfer := Decoded.SingleDataTransfer
  HandleBlockDataTransfer := Decoded.BlockDataTransfer
  HandleBranchRelative := Decoded.BranchRelative
  HandleCoprocessorRegisterTransfer := Decoded.CoprocessorRegisterTransfer
  HandleException := Decoded.Exception
  HandleCountLeadingZeros := Decoded.CountLeadingZeros
  HandleSaturatingAddSub := Decoded.SaturatingAddSub
  HandleSignedHalfwordMultiply := Decoded.SignedHalfwordMultiply
  HandleSignedWordHalfwordMultiply := Decoded.SignedWordHalfwordMultiply
  HandleSignedHalfwordMultiplyAccumulateLong := Decoded.SignedHalfwordMultiplyAccumulateLong
  Undefined := Decoded.Undefined

/-- The `condition` field of a delivered descriptor; `none` for the
undefined verdict, which carries no descriptor. -/
def Decoded.condition : Decoded → Option Condition
  | .DataProcessing d => some d.condition
  | .MoveStatusRegister d => some d.condition
  | .MoveRegisterStatus d => some d.condition
  | .Multiply d => some d.condition
  | .MultiplyLong d => some d.condition
  | .SingleDataSwap d => some d.condition
  | .BranchExchange d => some d.condition
  | .HalfwordSignedTransfer d => some d.condition
  | .SingleDataTransfer d => some d.condition
  | .BlockDataTransfer d => some d.condition
  | .BranchRelative d => some d.condition
  | .CoprocessorRegisterTransfer d => some d.condition
  | .Exception d => some d.condition
  | .CountLeadingZeros d => some d.condition
  | .SaturatingAddSub d => some d.condition
  | .SignedHalfwordMultiply d => some d.condition
  | .SignedWordHalfwordMultiply d => some d.condition
  | .SignedHalfwordMultiplyAccumulateLong d => some d.condition
  | .Undefined _ => none

/-- Whether the delivered verdict is `Undefined`. -/
def Decoded.isUndefined : Decoded → Bool
  | .Undefined _ => true
  | _ => false

/-- Whether a `BranchRelative` descriptor was delivered. -/
def Decoded.isBranchRelative : Decoded → Bool
  | .BranchRelative _ => true
  | _ => false

/-- Whether a `BranchExchange` descriptor was delivered. -/
def Decoded.isBranchExchange : Decoded → Bool
  | .BranchExchange _ => true
  | _ => false

/-! ## Sub-decoders (`namespace detail`) -/

namespace detail

def decode_data_processing {T : Type} (condition : Condition) (opcode : Nat)
    (client : ARMDecodeClient T) : T :=
  client.HandleDataProcessing {
    condition := condition
    opcode := bit.get_field opcode 21 4
    immediate := bit.get_flag opcode 25
    set_flags := bit.get_flag opcode 20
    reg_dst := bit.get_field opcode 12 4
    reg_op1 := bit.get_field opcode 16 4
    op2_reg := {
      reg := bit.get_field opcode 0 4
      shift := {
        type := bit.get_field opcode 5 2
        immediate := !bit.get_flag opcode 4
        amount_reg := bit.get_field opcode 8 4
        amount_imm := bit.get_field opcode 7 5
      }
    }
    op2_imm := {
      value := bit.get_field opcode 0 8
      shift := (bit.get_field opcode 8 4 * 2) % 2 ^ 32
    }
  }

def decode_move_status_register {T : Type} (condition : Condition) (opcode : Nat)
    (client : ARMDecodeClient T) : T :=
  client.HandleMoveStatusRegister {
    condition := condition
    immediate := bit.get_flag opcode 25
    spsr := bit.get_flag opcode 22
    fsxc := bit.get_field opcode 16 4
    reg := bit.get_field opcode 0 4
    imm := bit.rotate_right (opcode % 2 ^ 8) ((bit.get_field opcode 8 4 * 2) % 2 ^ 32)
  }

def decode_move_register_status {T : Type} (condition : Condition) (opcode : Nat)
    (client : ARMDecodeClient T) : T :=
  client.HandleMoveRegisterStatus {
    condition := condition
    spsr := bit.get_flag opcode 22
    reg := bit.get_field opcode 12 4
  }

def decode_multiply {T : Type} (condition : Condition) (opcode : Nat)
    (client : ARMDecodeClient T) : T :=
  client.HandleMultiply {
    condition := condition
    accumulate := bit.get_flag opcode 21
    set_flags := bit.get_flag opcode 20
    reg_op1 := bit.get_field opcode 0 4
    reg_op2 := bit.get_field opcode 8 4
    reg_op3 := bit.get_field opcode 12 4
    reg_dst := bit.get_field opcode 16 4
  }

def decode_multiply_long {T : Type} (condition : Condition) (opcode : Nat)
    (client : ARMDecodeClient T) : T :=
  client.HandleMultiplyLong {
    condition := condition
    sign_extend := bit.get_flag opcode 22
    accumulate := bit.get_flag opcode 21
    set_flags := bit.get_flag opcode 20
    reg_op1 := bit.get_field opcode 0 4
    reg_op2 := bit.get_field opcode 8 4
    reg_dst_lo := bit.get_field opcode 12 4
    reg_dst_hi := bit.get_field opcode 16 4
  }

def decode_single_data_swap {T : Type} (condition : Condition) (opcode : Nat)
    (client : ARMDecodeClient T) : T :=
  client.HandleSingleDataSwap {
    condition := condition
    byte := bit.get_flag opcode 22
    reg_src := bit.get_field opcode 0 4
    reg_dst := bit.get_field opcode 12 4
    reg_base := bit.get_field opcode 16 4
  }

def decode_branch_exchange {T : Type} (condition : Condition) (opcode : Nat)
    (client : ARMDecodeClient T) : T :=
  client.HandleBranchExchange {
    condition := condition
    reg := bit.get_field opcode 0 4
    link := bit.get_flag opcode 5
  }

def decode_halfword_signed_transfer {T : Type} (condition : Condition) (opcode : Nat)
    (client : ARMDecodeClient T) : T :=
  client.HandleHalfwordSignedTransfer {
    condition := condition
    pre_increment := bit.get_flag opcode 24
    add := bit.get_flag opcode 23
    immediate := bit.get_flag opcode 22
    writeback := bit.get_flag opcode 21
    load := bit.get_flag opcode 20
    opcode := bit.get_field opcode 5 2
    reg_dst := bit.get_field opcode 12 4
    reg_base := bit.get_field opcode 16 4
    offset_imm := (opcode &&& 0xF) ||| ((opcode >>> 4) &&& 0xF0)
    offset_reg := bit.get_field opcode 0 4
  }

def decode_single_data_transfer {T : Type} (condition : Condition) (opcode : Nat)
    (client : ARMDecodeClient T) : T :=
  client.HandleSingleDataTransfer {
    condition := condition
    immediate := !bit.get_flag opcode 25
    pre_increment := bit.get_flag opcode 24
    add := bit.get_flag opcode 23
    byte := bit.get_flag opcode 22
    writeback := bit.get_flag opcode 21
    load := bit.get_flag opcode 20
    reg_dst := bit.get_field opcode 12 4
    reg_base := bit.get_field opcode 16 4
    offset_imm := bit.get_field opcode 0 12
    offset_reg := {
      reg := bit.get_field opcode 0 4
      shift := bit.get_field opcode 5 2
      amount := bit.get_field opcode 7 5
    }
  }

def decode_block_data_transfer {T : Type} (condition : Condition) (opcode : Nat)
    (client : ARMDecodeClient T) : T :=
  client.HandleBlockDataTransfer {
    condition := condition
    pre_increment := bit.get_flag opcode 24
    add := bit.get_flag opcode 23
    user_mode := bit.get_flag opcode 22
    writeback := bit.get_flag opcode 21
    load := bit.get_flag opcode 20
    reg_base := bit.get_field opcode 16 4
    reg_list := bit.get_field opcode 0 16
  }

def decode_branch_relative {T : Type} (condition : Condition) (opcode : Nat)
    (client : ARMDecodeClient T) : T :=
  let offset := opcode &&& 0xFFFFFF
  let offset := if offset &&& 0x800000 ≠ 0 then offset ||| 0xFF000000 else offset
  let offset := (offset * 4) % 2 ^ 32
  client.HandleBranchRelative {
    condition := condition
    offset := s32 offset
    link := bit.get_flag opcode 24
    exchange := false
  }

def decode_coprocessor_register_transfer {T : Type} (condition : Condition) (opcode : Nat)
    (client : ARMDecodeClient T) : T :=
  client.HandleCoprocessorRegisterTransfer {
    condition := condition
    load := bit.get_flag opcode 20
    reg_dst := bit.get_field opcode 12 4
    coprocessor_id := bit.get_field opcode 8 4
    opcode1 := bit.get_field opcode 21 3
    cn := bit.get_field opcode 16 4
    cm := bit.get_field opcode 0 4
    opcode2 := bit.get_field opcode 5 3
  }

def decode_svc {T : Type} (condition : Condition) (opcode : Nat)
    (client : ARMDecodeClient T) : T :=
  client.HandleException {
    condition := condition
    exception := Exception.Supervisor
    svc_comment := opcode &&& 0x00FFFFFF
  }

def decode_count_leading_zeros {T : Type} (condition : Condition) (opcode : Nat)
    (client : ARMDecodeClient T) : T :=
  client.HandleCountLeadingZeros {
    condition := condition
    reg_src := bit.get_field opcode 0 4
    reg_dst := bit.get_field opcode 12 4
  }

def decode_saturating_add_sub {T : Type} (condition : Condition) (opcode : Nat)
    (client : ARMDecodeClient T) : T :=
  let op := bit.get_field opcode 20 4
  if op &&& 0b1001 ≠ 0 then
    client.Undefined opcode
  else
    client.HandleSaturatingAddSub {
      condition := condition
      subtract := bit.get_flag op 1
      double_rhs := bit.get_flag op 2
      reg_dst := bit.get_field opcode 12 4
      reg_lhs := bit.get_field opcode 0 4
      reg_rhs := bit.get_field opcode 16 4
    }

def decode_signed_halfword_multiply {T : Type} (condition : Condition) (opcode : Nat)
    (client : ARMDecodeClient T) : T :=
  let op := bit.get_field opcode 21 4
  let x := bit.get_flag opcode 5
  let y := bit.get_flag opcode 6
  let dst := bit.get_field opcode 16 4
  let lhs := bit.get_field opcode 0 4
  let rhs := bit.get_field opcode 8 4
  let op3 := bit.get_field opcode 12 4
  -- SMLAxy, SMULxy
  if op = 0b1000 ∨ op = 0b1011 then
    client.HandleSignedHalfwordMultiply {
      condition := condition
      accumulate := decide (op = 0b1000)
      x := x
      y := y
      reg_dst := dst
      reg_lhs := lhs
      reg_rhs := rhs
      reg_op3 := op3
    }
  else if op = 0b1001 then
    client.HandleSignedWordHalfwordMultiply {
      condition := condition
      accumulate := !x
      y := y
      reg_dst := dst
      reg_lhs := lhs
      reg_rhs := rhs
      reg_op3 := op3
    }
  -- SMLALxy
  else if op = 0b1010 then
    client.HandleSignedHalfwordMultiplyAccumulateLong {
      condition := condition
      x := x
      y := y
      reg_dst_hi := dst
      reg_dst_lo := op3
      reg_lhs := lhs
      reg_rhs := rhs
    }
  else
    client.Undefined opcode

-- unconditional opcodes:

def decode_branch_link_exchange_relative {T : Type} (opcode : Nat)
    (client : ARMDecodeClient T) : T :=
  let offset := opcode &&& 0xFFFFFF
  let offset := if offset &&& 0x800000 ≠ 0 then offset ||| 0xFF000000 else offset
  let offset := (offset * 4) % 2 ^ 32
  let offset := (offset + (bit.get_field opcode 23 2 &&& 2)) % 2 ^ 32
  client.HandleBranchRelative {
    condition := Condition.AL
    offset := s32 offset
    link := true
    exchange := true
  }

end detail

/-! ## The decoder -/

/-- Decodes an ARM opcode into one of multiple structures, passes the
resulting structure to a client and returns the client's return value. The
`switch` statements of the source are chains of `if`; where control leaves a
`switch` without a `return` it continues with the statement that follows. -/
def decode_arm {T : Type} (instruction : Nat) (client : ARMDecodeClient T) : T :=
  let opcode := instruction &&& 0x0FFFFFFF
  let condition : Condition := bit.get_field instruction 28 4
  if condition = Condition.NV then
    if (instruction >>> 25) &&& 7 = 5 then
      detail.decode_branch_link_exchange_relative opcode client
    else
      client.Undefined instruction
  else if opcode >>> 25 = 0b000 then
    let set_flags : Bool := opcode &&& (1 <<< 20) != 0
    let opcode2 := (opcode >>> 21) &&& 0xF
    if opcode &&& 0x90 = 0x90 then
      -- Multiplies (A3-3), Extra load/stores (A3-5)
      if opcode &&& 0x60 ≠ 0 then
        detail.decode_halfword_signed_transfer condition opcode client
      else if (opcode >>> 23) &&& 3 = 0b00 ∨ (opcode >>> 23) &&& 3 = 0b01 then
        let op := bit.get_field opcode 21 4
        if op = 0b000 ∨ op = 0b001 then
          -- MUL, MLA
          detail.decode_multiply condition opcode client
        else if op = 0b100 ∨ op = 0b101 ∨ op = 0b110 ∨ op = 0b111 then
          -- UMULL, UMLAL, SMULL, SMLAL
          detail.decode_multiply_long condition opcode client
        else
          client.Undefined instruction
      else if (opcode >>> 23) &&& 3 = 0b10 then
        detail.decode_single_data_swap condition opcode client
      else if (opcode >>> 23) &&& 3 = 0b11 then
        client.Undefined instruction
      else
        detail.decode_data_processing condition opcode client
    else if set_flags = false ∧ opcode2 ≥ 0b1000 ∧ opcode2 ≤ 0b1011 then
      -- Miscellaneous instructions (A3-4)
      if opcode &&& 0xF0 = 0 then
        if bit.get_bit opcode 21 ≠ 0 then
          detail.decode_move_status_register condition opcode client
        else
          detail.decode_move_register_status condition opcode client
      else if opcode &&& 0x6000F0 = 0x200010 then
        -- Branch and exchange (no link)
        detail.decode_branch_exchange condition opcode client
      else if opcode &&& 0x6000F0 = 0x200020 then
        client.Undefined instruction
      else if opcode &&& 0x6000F0 = 0x600010 then
        detail.decode_count_leading_zeros condition opcode client
      else if opcode &&& 0x6000F0 = 0x200030 then
        -- Branch and exchange with link
        detail.decode_branch_exchange condition opcode client
      else if opcode &&& 0xF0 = 0x50 then
        detail.decode_saturating_add_sub condition opcode client
      else if opcode &&& 0x6000F0 = 0x200070 then
        client.Undefined instruction
      else if opcode &&& 0x90 = 0x80 then
        -- Signed halfword multiply (ARMv5 upwards)
        detail.decode_signed_halfword_multiply condition opcode client
      else
        detail.decode_data_processing condition opcode client
    else
      -- Data processing immediate shift, Data processing register shift
      detail.decode_data_processing condition opcode client
  else if opcode >>> 25 = 0b001 then
    let set_flags : Bool := opcode &&& (1 <<< 20) != 0
    if set_flags = false then
      let opcode2 := (opcode >>> 21) &&& 0xF
      if opcode2 = 0b1000 ∨ opcode2 = 0b1010 then
        client.Undefined instruction
      else if opcode2 = 0b1001 ∨ opcode2 = 0b1011 then
        detail.decode_move_status_register condition opcode client
      else
        detail.decode_data_processing condition opcode client
    else
      detail.decode_data_processing condition opcode client
  else if opcode >>> 25 = 0b010 then
    -- Load/store immediate offset
    detail.decode_single_data_transfer condition opcode client
  else if opcode >>> 25 = 0b011 then
    -- Load/store register offset, Media instructions
    if opcode &&& 0x10 ≠ 0 then
      client.Undefined instruction
    else
      detail.decode_single_data_transfer condition opcode client
  else if opcode >>> 25 = 0b100 then
    -- Load/store multiple
    detail.decode_block_data_transfer condition opcode client
  else if opcode >>> 25 = 0b101 then
    -- Branch and branch with link
    detail.decode_branch_relative condition opcode client
  else if opcode >>> 25 = 0b110 then
    -- Coprocessor load/store and double register transfers
    client.Undefined instruction
  else if opcode >>> 25 = 0b111 then
    -- Coprocessor data processing, Coprocessor register transfers, Software interrupt
    if opcode &&& 0x1000010 = 0 then
      client.Undefined instruction
    else if opcode &&& 0x1000010 = 0x10 then
      detail.decode_coprocessor_register_transfer condition opcode client
    else
      detail.decode_svc condition opcode client
  else
    client.Undefined instruction

/-- Hand what the decoder delivered to a client: the descriptor to the matching
`Handle`, an undefined word to `Undefined`. -/
def Decoded.dispatch {T : Type} (client : ARMDecodeClient T) : Decoded → T
  | .DataProcessing d => client.HandleDataProcessing d
  | .MoveStatusRegister d => client.HandleMoveStatusRegister d
  | .MoveRegisterStatus d => client.HandleMoveRegisterStatus d
  | .Multiply d => client.HandleMultiply d
  | .MultiplyLong d => client.HandleMultiplyLong d
  | .SingleDataSwap d => client.HandleSingleDataSwap d
  | .BranchExchange d => client.HandleBranchExchange d
  | .HalfwordSignedTransfer d => client.HandleHalfwordSignedTransfer d
  | .SingleDataTransfer d => client.HandleSingleDataTransfer d
  | .BlockDataTransfer d => client.HandleBlockDataTransfer d
  | .BranchRelative d => client.HandleBranchRelative d
  | .CoprocessorRegisterTransfer d => client.HandleCoprocessorRegisterTransfer d
  | .Exception d => client.HandleException d
  | .CountLeadingZeros d => client.HandleCountLeadingZeros d
  | .SaturatingAddSub d => client.HandleSaturatingAddSub d
  | .SignedHalfwordMultiply d => client.HandleSignedHalfwordMultiply d
  | .SignedWordHalfwordMultiply d => client.HandleSignedWordHalfwordMultiply d
  | .SignedHalfwordMultiplyAccumulateLong d =>
    client.HandleSignedHalfwordMultiplyAccumulateLong d
  | .Undefined opcode => client.Undefined opcode

/-! ## Guest state (`frontend/state.hpp`)

The declarations of the guest state are not part of the files under study;
they are modelled from the specification's data model. The accessors of the
source return C++ references; each is a pair of a read and a write here. -/

/-- The operating mode, carried as its 5-bit encoding. -/
abbrev Mode := Nat

/-- Modelled from the spec: the `IRQ` operating mode, encoding `0b10010`; the
enumeration `Mode` is declared outside the files under study. -/
abbrev Mode.IRQ : Mode := 0x12

/-- Modelled from the spec: the link register, GPR index 14; the enumeration
`GPR` is declared outside the files under study. -/
abbrev GPR.LR : GPR := 14

/-- Modelled from the spec: the program counter, GPR index 15; the
enumeration `GPR` is declared outside the files under study. -/
abbrev GPR.PC : GPR := 15

/-- Modelled from the spec: `StatusRegister` (the view `f` of its fields), a
status register carrying the N/Z/C/V flags, the IRQ and FIQ masks, the Thumb
bit and the 5-bit mode field; `reserved` stands for the remaining bits. -/
structure StatusRegister where
  mode : Mode
  thumb : Bool
  mask_fiq : Bool
  mask_irq : Bool
  reserved : Nat
  v : Bool
  c : Bool
  z : Bool
  n : Bool
  deriving DecidableEq, Repr

/-- Modelled from the spec: `State`, the guest architectural state. A pair of
a mode and a register index resolves to an architectural location
(`gpr_location`), because banked registers depend on the mode; each
privileged mode has a saved status register, found at `spsr_location`. The
values live in `gpr_storage` and `spsr_storage`, indexed by location, and
the CPSR is a location of its own. -/
structure State where
  gpr_location : Mode → GPR → Nat
  spsr_location : Mode → Nat
  gpr_storage : Nat → Nat
  spsr_storage : Nat → StatusRegister
  cpsr : StatusRegister

namespace State

/-- Modelled from the spec: a read through `state.GetGPR(mode, reg)`. -/
def GetGPR (state : State) (mode : Mode) (reg : GPR) : Nat :=
  state.gpr_storage (state.gpr_location mode reg)

/-- Modelled from the spec: an assignment through `state.GetGPR(mode, reg)`. -/
def SetGPR (state : State) (mode : Mode) (reg : GPR) (value : Nat) : State :=
  { state with
    gpr_storage := Function.update state.gpr_storage (state.gpr_location mode reg) value }

/-- Modelled from the spec: a read through `state.GetCPSR()`. -/
def GetCPSR (state : State) : StatusRegister :=
  state.cpsr

/-- Modelled from the spec: an assignment through `state.GetCPSR()`. -/
def SetCPSR (state : State) (value : StatusRegister) : State :=
  { state with cpsr := value }

/-- Modelled from the spec: a read through `*state.GetPointerToSPSR(mode)`. -/
def GetSPSR (state : State) (mode : Mode) : StatusRegister :=
  state.spsr_storage (state.spsr_location mode)

/-- Modelled from the spec: an assignment through
`*state.GetPointerToSPSR(mode)`. -/
def SetSPSR (state : State) (mode : Mode) (value : StatusRegister) : State :=
  { state with
    spsr_storage := Function.update state.spsr_storage (state.spsr_location mode) value }

end State

/-! ## IR emitter and basic blocks

Of the IR only the emitter's two lists are declared in the files under study
(`frontend/ir/emitter.hpp`); opcodes, variables, basic blocks and the block
cache are modelled from the specification's data model. -/

/-- Modelled from the spec: the IR data types, of which `UInt32` is named. -/
inductive IRDataType where
  | UInt32
  deriving DecidableEq, Repr

/-- Modelled from the spec: an IR variable, a handle to an SSA value with a
unique identity, a declared data type and an optional debug label. -/
structure IRVariable where
  id : Nat
  data_type : IRDataType
  label : Option String
  deriving DecidableEq, Repr

/-- Modelled from the spec: an IR value, either an IR variable or a
compile-time constant. -/
inductive IRValue where
  | variable (v : IRVariable)
  | constant (value : Nat)
  deriving DecidableEq, Repr

/-- Modelled from the spec: the operation kinds of IR opcodes, one for each
emitting member function declared in `emitter.hpp`. -/
inductive IROpcodeClass where
  | LoadGPR | StoreGPR | LoadCPSR | StoreCPSR
  | LSL | LSR | ASR | ROR
  | AND | EOR | ADD | SUB
  | UpdateNZCV | UpdateNZC
  deriving DecidableEq, Repr

/-- Modelled from the spec: an IR opcode, a record with an operation kind,
zero or one output variable, and its input values. -/
structure IROpcode where
  kind : IROpcodeClass
  output : Option IRVariable
  inputs : List IRValue
  deriving DecidableEq, Repr

/-- The IR emitter: the opcode list `code` and the variable pool it builds
(the member `variables` of the source, named after its accessor `Vars`). -/
structure IREmitter where
  code : List IROpcode
  vars : List IRVariable
  deriving DecidableEq, Repr

/-- Modelled from the spec: a micro-block, one atomic unit of translation with
its own emitter (`micro_block.emitter` in `JIT::Compile`). -/
structure MicroBlock where
  emitter : IREmitter
  deriving DecidableEq, Repr

/-- Modelled from the spec: a block key (the view `field`), the program
counter and the mode bits it was formed from. -/
structure BasicBlock.Key where
  address : Nat
  mode : Mode
  deriving DecidableEq, Repr

/-- Modelled from the spec: the packed view `value` of a block key; only
whether it is zero is used (a branch target is zero when unknown), and it is
zero exactly when every field is zero. -/
def BasicBlock.Key.value (key : BasicBlock.Key) : Nat :=
  key.address + 2 ^ 32 * key.mode

/-- Modelled from the spec: the statically known branch target of a block. -/
structure BasicBlock.BranchTarget where
  key : BasicBlock.Key
  deriving DecidableEq, Repr

/-- Modelled from the spec: a basic block, with the members the files under
study use: `key`, `emitter` (used by the translator), `micro_blocks` and
`branch_target` (used by `JIT::Compile`), and the backend-produced compiled
code, `none` while the block is not compiled. -/
structure BasicBlock where
  key : BasicBlock.Key
  emitter : IREmitter
  micro_blocks : List MicroBlock
  branch_target : BasicBlock.BranchTarget
  function : Option Nat
  deriving DecidableEq, Repr

/-- Modelled from the spec: `new BasicBlock{key}`, a block that has its key and
nothing else: no IR, no known branch target (a zero key), no compiled code. -/
def BasicBlock.create (key : BasicBlock.Key) : BasicBlock :=
  { key := key
    emitter := { code := [], vars := [] }
    micro_blocks := []
    branch_target := { key := { address := 0, mode := 0 } }
    function := none }

/-- Modelled from the spec: the block cache, a mapping from block key to basic
block. -/
structure BasicBlockCache where
  data : BasicBlock.Key → Option BasicBlock

namespace BasicBlockCache

/-- Modelled from the spec: `Get(key)`, the lookup; `none` is the null pointer. -/
def Get (cache : BasicBlockCache) (key : BasicBlock.Key) : Option BasicBlock :=
  cache.data key

/-- Modelled from the spec: `Set(key, block)`, which replaces any prior entry
for that key. -/
def Set (cache : BasicBlockCache) (key : BasicBlock.Key) (block : BasicBlock) :
    BasicBlockCache :=
  { data := Function.update cache.data key (some block) }

/-- Modelled from the spec: `Flush()`, which evicts everything. -/
def Flush (_cache : BasicBlockCache) : BasicBlockCache :=
  { data := fun _ => none }

end BasicBlockCache

/-- Modelled from the spec: guest memory, of which the code-path read
`FastRead<u32, Memory::Bus::Code>(address)` is used. -/
structure Memory where
  FastRead : Nat → Nat

/-- A record of the calls made into collaborators (memory, decoder, block
cache, translator, backend) and of the entries into `JIT::Compile`, in the
order they happen. It is not part of the program: it is kept next to the
program state so that statements about which calls are made can be written. -/
inductive Event where
  | MemoryFastRead (address : Nat)
  | Decode (instruction : Nat)
  | CacheGet (key : BasicBlock.Key)
  | CacheSet (key : BasicBlock.Key)
  | Compile (key : BasicBlock.Key) (depth : Int)
  | Translate (key : BasicBlock.Key)
  | BackendCompile (key : BasicBlock.Key)
  | BackendCall (key : BasicBlock.Key) (cycles : Int)
  deriving DecidableEq, Repr

/-- Whether an entry of the record of calls is an entry into `JIT::Compile`. -/
def Event.isCompile : Event → Bool
  | .Compile _ _ => true
  | _ => false

/-- Whether an entry of the record of calls is a call of the backend's code
generator. -/
def Event.isBackendCompile : Event → Bool
  | .BackendCompile _ => true
  | _ => false

/-! ## Translator (`frontend/translator/translator.cpp`) -/

/-- The data members of `Translator`: the memoized mode and the emitter
pointer, which is null (`none`) or points at the emitter of the block with
the given key. -/
structure Translator where
  mode : Mode
  emitter : Option BasicBlock.Key
  deriving DecidableEq, Repr

/-- What a member function of the translator called by the decoder is: it
returns a `bool` and may change the translator and, through the emitter
pointer, the block being translated. -/
abbrev Translator.Action := Translator → BasicBlock → Bool × Translator × BasicBlock

/-- `Translator::Undefined`: returns `false` and changes nothing. -/
def Translator.Undefined (_opcode : Nat) : Translator.Action :=
  fun translator block => (false, translator, block)

/-- The translator as a decode client. The bodies of its `Handle` overloads
are not part of the files under study and are taken as the parameter
`handlers`; `Undefined` is the one of the source. -/
def Translator.client (handlers : ARMDecodeClient Translator.Action) :
    ARMDecodeClient Translator.Action :=
  { handlers with Undefined := Translator.Undefined }

/-- `Translator::Translate`: the result, the translator and the block after
the call, and the calls made to memory and decoder. -/
def Translator.Translate (handlers : ARMDecodeClient Translator.Action)
    (translator : Translator) (block : BasicBlock) (memory : Memory) :
    Bool × Translator × BasicBlock × List Event :=
  let address := block.key.address
  if address &&& 1 ≠ 0 then
    -- Thumb mode is not supported right now.
    (false, translator, block, [])
  else
    let translator := { translator with mode := block.key.mode, emitter := some block.key }
    let instruction := memory.FastRead address
    let result := decode_arm instruction (Translator.client handlers) translator block
    (result.1, result.2.1, result.2.2, [Event.MemoryFastRead address, Event.Decode instruction])

/-! ## The CPU (`jit.cpp`) -/

/-- The value a C `int` (32 bits, two's complement) holds after an arithmetic
operation whose mathematical result is `x`: a result outside the range wraps
around. -/
def int_wrap (x : Int) : Int :=
  (x + 0x80000000) % 0x100000000 - 0x80000000

/-- The data members of `JIT` (the backend apart, which is a collaborator),
and the record of calls `log`. `cycles_to_run` is a C `int`: it is an integer
here, and the sums and differences `Run` computes with it are wrapped by
`int_wrap`. -/
structure JIT where
  irq_line : Bool
  wait_for_irq : Bool
  cycles_to_run : Int
  exception_base : Nat
  memory : Memory
  state : State
  translator : Translator
  block_cache : BasicBlockCache
  log : List Event

/-- What host code running inside `backend.Call` can reach: the guest state,
the block cache and the IRQ line, which the backend holds by reference, and
the IRQ-wait flag through the CPU interface. -/
structure HostView where
  irq_line : Bool
  wait_for_irq : Bool
  state : State
  block_cache : BasicBlockCache

/-- The collaborators of the dispatch loop whose code is not part of the files
under study, taken as parameters: the constructor `BasicBlock::Key{state}`,
the `Handle` overloads of the translator, the optimizer run on a micro-block's
emitter, and the backend's `Compile` and `Call`. -/
structure Collaborators where
  KeyOfState : State → BasicBlock.Key
  handlers : ARMDecodeClient Translator.Action
  Optimize : IREmitter → IREmitter
  BackendCompile : BasicBlock → BasicBlock
  BackendCall : BasicBlock → Int → HostView → Int × HostView

namespace JIT

/-- `JIT::IRQLine`. -/
def IRQLine (jit : JIT) : Bool :=
  jit.irq_line

/-- `JIT::WaitForIRQ`. -/
def WaitForIRQ (jit : JIT) : JIT :=
  { jit with wait_for_irq := true }

/-- `JIT::CancelIRQWait`. -/
def CancelIRQWait (jit : JIT) : JIT :=
  { jit with wait_for_irq := false }

/-- `JIT::IsWaitingForIRQ`. -/
def IsWaitingForIRQ (jit : JIT) : Bool :=
  jit.wait_for_irq

/-- `JIT::GetCPSR`. -/
def GetCPSR (jit : JIT) : StatusRegister :=
  jit.state.GetCPSR

/-- `JIT::GetSPSR(mode)`. -/
def GetSPSR (jit : JIT) (mode : Mode) : StatusRegister :=
  jit.state.GetSPSR mode

/-- `JIT::SetCPSR`. -/
def SetCPSR (jit : JIT) (value : StatusRegister) : JIT :=
  { jit with state := jit.state.SetCPSR value }

/-- `JIT::SetSPSR`. -/
def SetSPSR (jit : JIT) (mode : Mode) (value : StatusRegister) : JIT :=
  { jit with state := jit.state.SetSPSR mode value }

/-- `JIT::GetGPR(reg, mode)`. -/
def GetGPR (jit : JIT) (reg : GPR) (mode : Mode) : Nat :=
  jit.state.GetGPR mode reg

/-- `JIT::GetGPR(reg)`, in the current mode. -/
def GetGPR_current (jit : JIT) (reg : GPR) : Nat :=
  jit.GetGPR reg jit.GetCPSR.mode

/-- `JIT::SetGPR(reg, mode, value)`: the write, and for the program counter
the pipeline offset of two instructions. -/
def SetGPR (jit : JIT) (reg : GPR) (mode : Mode) (value : Nat) : JIT :=
  let state := jit.state.SetGPR mode reg value
  let state :=
    if reg = GPR.PC then
      if state.GetCPSR.thumb then
        state.SetGPR mode GPR.PC ((state.GetGPR mode GPR.PC + 2 * 2) % 2 ^ 32)
      else
        state.SetGPR mode GPR.PC ((state.GetGPR mode GPR.PC + 4 * 2) % 2 ^ 32)
    else
      state
  { jit with state := state }

/-- `JIT::SetGPR(reg, value)`, in the current mode. -/
def SetGPR_current (jit : JIT) (reg : GPR) (value : Nat) : JIT :=
  jit.SetGPR reg jit.state.GetCPSR.mode value

/-- `JIT::SignalIRQ`. -/
def SignalIRQ (jit : JIT) : JIT :=
  let jit := { jit with wait_for_irq := false }
  if jit.state.GetCPSR.mask_irq = false then
    -- GetSPSR(Mode::IRQ) = cpsr
    let state := jit.state.SetSPSR Mode.IRQ jit.state.GetCPSR
    -- cpsr.f.mode = Mode::IRQ; cpsr.f.mask_irq = 1
    let state := state.SetCPSR { state.GetCPSR with mode := Mode.IRQ }
    let state := state.SetCPSR { state.GetCPSR with mask_irq := true }
    let state :=
      if state.GetCPSR.thumb then
        state.SetGPR state.GetCPSR.mode GPR.LR (state.GetGPR state.GetCPSR.mode GPR.PC)
      else
        state.SetGPR state.GetCPSR.mode GPR.LR
          ((state.GetGPR state.GetCPSR.mode GPR.PC + 2 ^ 32 - 4) % 2 ^ 32)
    -- cpsr.f.thumb = 0
    let state := state.SetCPSR { state.GetCPSR with thumb := false }
    let state := state.SetGPR state.GetCPSR.mode GPR.PC
      ((jit.exception_base + 0x18 + 4 * 2) % 2 ^ 32)
    { jit with state := state }
  else
    jit

/-- `JIT::Compile`: the new block and the CPU after the call. The recursion
on the branch target stops because `depth` grows with every nested call and
no call is nested once it exceeds 8. -/
def Compile (env : Collaborators) (block_key : BasicBlock.Key) (depth : Int) (jit : JIT) :
    BasicBlock × JIT :=
  let jit := { jit with log := jit.log ++ [Event.Compile block_key depth] }
  let basic_block := BasicBlock.create block_key
  -- translator.Translate(*basic_block), its result is not used
  let translated := jit.translator.Translate env.handlers basic_block jit.memory
  let basic_block : BasicBlock := translated.2.2.1
  let jit : JIT := { jit with
    translator := translated.2.1
    log := jit.log ++ [Event.Translate block_key] ++ translated.2.2.2 }
  let basic_block : BasicBlock := { basic_block with
    micro_blocks := basic_block.micro_blocks.map
      (fun micro_block => { micro_block with emitter := env.Optimize micro_block.emitter }) }
  let jit : JIT :=
    if depth ≤ 8 then
      let branch_target_key : BasicBlock.Key := basic_block.branch_target.key
      if branch_target_key.value ≠ 0 then
        let found := jit.block_cache.Get branch_target_key
        let jit := { jit with log := jit.log ++ [Event.CacheGet branch_target_key] }
        if found.isNone then
          (Compile env branch_target_key (depth + 1) jit).2
        else
          jit
      else
        jit
    else
      jit
  let basic_block := env.BackendCompile basic_block
  let jit := { jit with
    block_cache := jit.block_cache.Set block_key basic_block
    log := jit.log ++ [Event.BackendCompile block_key, Event.CacheSet block_key] }
  (basic_block, jit)
termination_by (9 - depth).toNat
decreasing_by omega

/-- The loop of `JIT::Run`. Every iteration uses one unit of `fuel`; the
result is `none` when the fuel runs out before the loop ends. -/
def Run.loop (env : Collaborators) (start_cycles : Int) : Nat → JIT → Option (Int × JIT)
  | fuel, jit =>
    if jit.cycles_to_run > 0 then
      match fuel with
      | 0 => none
      | fuel + 1 =>
        let jit := if jit.IRQLine then jit.SignalIRQ else jit
        let block_key := env.KeyOfState jit.state
        let found := jit.block_cache.Get block_key
        let jit := { jit with log := jit.log ++ [Event.CacheGet block_key] }
        let compiled :=
          match found with
          | none => Compile env block_key 0 jit
          | some basic_block => (basic_block, jit)
        let basic_block := compiled.1
        let jit := compiled.2
        let called := env.BackendCall basic_block jit.cycles_to_run
          { irq_line := jit.irq_line, wait_for_irq := jit.wait_for_irq, state := jit.state,
            block_cache := jit.block_cache }
        let jit := { jit with
          irq_line := called.2.irq_line
          wait_for_irq := called.2.wait_for_irq
          state := called.2.state
          block_cache := called.2.block_cache
          cycles_to_run := called.1
          log := jit.log ++ [Event.BackendCall basic_block.key jit.cycles_to_run] }
        if jit.IsWaitingForIRQ then
          let cycles_executed := int_wrap (start_cycles - jit.cycles_to_run)
          some (cycles_executed, { jit with cycles_to_run := 0 })
        else
          Run.loop env start_cycles fuel jit
    else
      some (int_wrap (start_cycles - jit.cycles_to_run), jit)

/-- `JIT::Run`: the number of cycles executed and the CPU after the call;
`none` when `fuel` iterations of the loop do not end it. -/
def Run (env : Collaborators) (fuel : Nat) (cycles : Int) (jit : JIT) : Option (Int × JIT) :=
  if jit.IsWaitingForIRQ = true ∧ jit.IRQLine = false then
    some (0, jit)
  else
    let jit := { jit with cycles_to_run := int_wrap (jit.cycles_to_run + cycles) }
    let start_cycles := jit.cycles_to_run
    Run.loop env start_cycles fuel jit

end JIT

/-! ## Concrete instances -/

/-- A guest state for concrete instances: registers 13 and 14 are banked per
mode and the other registers, PC among them, are shared; PC holds `0x1008`;
the CPSR is in ARM state, in mode `0x1F`, with IRQs enabled. -/
def State.sample : State where
  gpr_location := fun mode reg => if reg = 13 ∨ reg = 14 then 16 * mode + reg else reg
  spsr_location := fun mode => mode
  gpr_storage := fun location => if location = 15 then 0x1008 else 0
  spsr_storage := fun _ =>
    { mode := 0, thumb := false, mask_fiq := false, mask_irq := false, reserved := 0,
      v := false, c := false, z := false, n := false }
  cpsr :=
    { mode := 0x1F, thumb := false, mask_fiq := true, mask_irq := false, reserved := 0,
      v := false, c := true, z := false, n := false }

/-- A CPU for concrete instances: the guest state `State.sample`, the IRQ line
asserted, the CPU waiting for an IRQ, `exception_base = 0xFFFF0000`, memory
that reads as zero, an empty block cache and an empty record of calls. -/
def JIT.sample : JIT where
  irq_line := true
  wait_for_irq := true
  cycles_to_run := 0
  exception_base := 0xFFFF0000
  memory := { FastRead := fun _ => 0 }
  state := State.sample
  translator := { mode := 0, emitter := none }
  block_cache := { data := fun _ => none }
  log := []

/-- A translator member function for concrete instances: it reports success
and changes nothing. -/
def Translator.Action.sample : Translator.Action :=
  fun translator block => (true, translator, block)

/-- Collaborators for concrete instances: the block key is the PC and mode of
the current state, every `Handle` of the translator reports success and
emits nothing, the optimizer changes nothing, the backend marks a block as
compiled, and `backend.Call` consumes the whole budget. -/
def Collaborators.sample : Collaborators where
  KeyOfState := fun state =>
    { address := state.GetGPR state.GetCPSR.mode GPR.PC, mode := state.GetCPSR.mode }
  handlers :=
    { HandleDataProcessing := fun _ => Translator.Action.sample
      HandleMoveStatusRegister := fun _ => Translator.Action.sample
      HandleMoveRegisterStatus := fun _ => Translator.Action.sample
      HandleMultiply := fun _ => Translator.Action.sample
      HandleMultiplyLong := fun _ => Translator.Action.sample
      HandleSingleDataSwap := fun _ => Translator.Action.sample
      HandleBranchExchange := fun _ => Translator.Action.sample
      HandleHalfwordSignedTransfer := fun _ => Translator.Action.sample
      HandleSingleDataTransfer := fun _ => Translator.Action.sample
      HandleBlockDataTransfer := fun _ => Translator.Action.sample
      HandleBranchRelative := fun _ => Translator.Action.sample
      HandleCoprocessorRegisterTransfer := fun _ => Translator.Action.sample
      HandleException := fun _ => Translator.Action.sample
      HandleCountLeadingZeros := fun _ => Translator.Action.sample
      HandleSaturatingAddSub := fun _ => Translator.Action.sample
      HandleSignedHalfwordMultiply := fun _ => Translator.Action.sample
      HandleSignedWordHalfwordMultiply := fun _ => Translator.Action.sample
      HandleSignedHalfwordMultiplyAccumulateLong := fun _ => Translator.Action.sample
      Undefined := fun _ => Translator.Action.sample }
  Optimize := fun emitter => emitter
  BackendCompile := fun block => { block with function := some 0 }
  BackendCall := fun _ _ view => (0, view)

/-- A CPU for concrete instances whose memory reads the undefined word
`0xE7F000F0` everywhere: `JIT.sample` with that memory, the IRQ line released
and the CPU not waiting. -/
def JIT.sample_undefined : JIT :=
  { JIT.sample with
    irq_line := false
    wait_for_irq := false
    memory := { FastRead := fun _ => 0xE7F000F0 } }

/-- A translator member function for concrete instances: it reports success
and records as the branch target of the block the word that follows the
block's own address, in the same mode. -/
def Translator.Action.chain : Translator.Action :=
  fun translator block =>
    (true, translator,
      { block with
        branch_target :=
          { key := { address := (block.key.address + 4) % 2 ^ 32, mode := block.key.mode } } })

/-- Collaborators for concrete instances that make every block branch to the
next one: `Collaborators.sample` with every `Handle` of the translator being
`Translator.Action.chain`. -/
def Collaborators.chain : Collaborators :=
  { Collaborators.sample with
    handlers :=
      { HandleDataProcessing := fun _ => Translator.Action.chain
        HandleMoveStatusRegister := fun _ => Translator.Action.chain
        HandleMoveRegisterStatus := fun _ => Translator.Action.chain
        HandleMultiply := fun _ => Translator.Action.chain
        HandleMultiplyLong := fun _ => Translator.Action.chain
        HandleSingleDataSwap := fun _ => Translator.Action.chain
        HandleBranchExchange := fun _ => Translator.Action.chain
        HandleHalfwordSignedTransfer := fun _ => Translator.Action.chain
        HandleSingleDataTransfer := fun _ => Translator.Action.chain
        HandleBlockDataTransfer := fun _ => Translator.Action.chain
        HandleBranchRelative := fun _ => Translator.Action.chain
        HandleCoprocessorRegisterTransfer := fun _ => Translator.Action.chain
        HandleException := fun _ => Translator.Action.chain
        HandleCountLeadingZeros := fun _ => Translator.Action.chain
        HandleSaturatingAddSub := fun _ => Translator.Action.chain
        HandleSignedHalfwordMultiply := fun _ => Translator.Action.chain
        HandleSignedWordHalfwordMultiply := fun _ => Translator.Action.chain
        HandleSignedHalfwordMultiplyAccumulateLong := fun _ => Translator.Action.chain
        Undefined := fun _ => Translator.Action.chain } }

/-! ## Bit masks as arithmetic

The masks the decoder uses are rewritten into quotients and remainders by
powers of two, the language in which the case analyses below are decided. -/

/-- A mask splits at any bit position into its high and its low part. -/
theorem land_split (x m k : Nat) :
    x &&& m = ((x / 2 ^ k) &&& (m / 2 ^ k)) * 2 ^ k + ((x % 2 ^ k) &&& (m % 2 ^ k)) := by
  apply Nat.eq_of_testBit_eq
  intro j
  have hlt : (x % 2 ^ k) &&& (m % 2 ^ k) < 2 ^ k :=
    Nat.lt_of_le_of_lt Nat.and_le_left (Nat.mod_lt _ (Nat.two_pow_pos k))
  rw [Nat.mul_comm, Nat.testBit_mul_pow_two_add _ hlt]
  by_cases hj : j < k
  · simp [hj, Nat.testBit_mod_two_pow]
  · have hk : k + (j - k) = j := by omega
    simp [hj, ← Nat.shiftRight_eq_div_pow, Nat.testBit_shiftRight, hk]

/-- Masking with a run of `n` one-bits that starts at bit `lo`. -/
theorem land_run (x lo n m : Nat) (hm : m = (2 ^ n - 1) * 2 ^ lo) :
    x &&& m = (x / 2 ^ lo % 2 ^ n) * 2 ^ lo := by
  subst hm
  rw [land_split x _ lo, Nat.mul_div_cancel _ (Nat.two_pow_pos lo), Nat.mul_mod_left,
    Nat.and_zero, Nat.and_pow_two_sub_one_eq_mod, Nat.add_zero]

/-- Masking with two runs of one-bits, the upper one starting at bit `k`. -/
theorem land_two_runs (x m k hi lo a n b p : Nat) (h1 : m / 2 ^ k = hi) (h2 : m % 2 ^ k = lo)
    (hhi : hi = (2 ^ n - 1) * 2 ^ a) (hlo : lo = (2 ^ p - 1) * 2 ^ b) :
    x &&& m = (x / 2 ^ k / 2 ^ a % 2 ^ n) * 2 ^ a * 2 ^ k + (x % 2 ^ k / 2 ^ b % 2 ^ p) * 2 ^ b := by
  rw [land_split x m k, h1, h2, land_run _ a n hi hhi, land_run _ b p lo hlo]

theorem lor_disjoint (a b k : Nat) (ha : a < 2 ^ k) : a ||| (b * 2 ^ k) = a + b * 2 ^ k := by
  apply Nat.eq_of_testBit_eq
  intro j
  rw [Nat.add_comm a, Nat.mul_comm b, Nat.testBit_mul_pow_two_add _ ha, Nat.testBit_or]
  by_cases hj : j < k
  · have : (2 ^ k * b).testBit j = false := by
      rw [← Nat.zero_add (2 ^ k * b), Nat.add_comm, Nat.testBit_mul_pow_two_add _ (Nat.two_pow_pos k)]
      simp [hj]
    simp [hj, this]
  · have h1 : a.testBit j = false := Nat.testBit_lt_two_pow (Nat.lt_of_lt_of_le ha (Nat.pow_le_pow_right (by decide) (by omega)))
    have : (2 ^ k * b).testBit j = b.testBit (j - k) := by
      rw [← Nat.zero_add (2 ^ k * b), Nat.add_comm, Nat.testBit_mul_pow_two_add _ (Nat.two_pow_pos k)]
      simp [hj]
    simp [hj, h1, this]

theorem get_field_eq (v lo n : Nat) : bit.get_field v lo n = v / 2 ^ lo % 2 ^ n := by
  rw [bit.get_field, Nat.and_pow_two_sub_one_eq_mod, Nat.shiftRight_eq_div_pow]

theorem get_bit_eq (v i : Nat) : bit.get_bit v i = v / 2 ^ i % 2 ^ 1 := by
  rw [bit.get_bit, Nat.shiftRight_eq_div_pow]
  exact Nat.and_pow_two_sub_one_eq_mod _ 1

theorem get_flag_eq (v i : Nat) : bit.get_flag v i = decide (v / 2 ^ i % 2 ^ 1 = 1) := by
  rw [bit.get_flag, get_bit_eq]
  rcases Nat.mod_two_eq_zero_or_one (v / 2 ^ i) with h | h <;> simp [h]

/-- A field that lies within the low 28 bits is the same in the instruction
word and in the word with the condition bits cleared. -/
theorem field_of_opcode (W lo n : Nat) (h : lo + n ≤ 28) :
    W % 2 ^ 28 / 2 ^ lo % 2 ^ n = W / 2 ^ lo % 2 ^ n := by
  obtain ⟨k, hk⟩ : ∃ k, 28 = lo + n + k := ⟨28 - (lo + n), by omega⟩
  have e : (2 : Nat) ^ 28 = 2 ^ lo * (2 ^ n * 2 ^ k) := by
    rw [hk, Nat.pow_add, Nat.pow_add, Nat.mul_assoc]
  rw [e, Nat.mod_mul_right_div_self, Nat.mod_mul_right_mod]

theorem land_0x0FFFFFFF (x : Nat) : x &&& 0x0FFFFFFF = x % 2 ^ 28 :=
  Nat.and_pow_two_sub_one_eq_mod x 28

theorem land_0xFFFFFF (x : Nat) : x &&& 0xFFFFFF = x % 2 ^ 24 :=
  Nat.and_pow_two_sub_one_eq_mod x 24

theorem land_0xF0_low (x : Nat) : x &&& 0xF0 = (x / 2 ^ 4 % 2 ^ 4) * 2 ^ 4 :=
  land_run x 4 4 0xF0 (by decide)

theorem land_0xF (x : Nat) : x &&& 0xF = x % 2 ^ 4 :=
  Nat.and_pow_two_sub_one_eq_mod x 4

theorem land_7 (x : Nat) : x &&& 7 = x % 2 ^ 3 :=
  Nat.and_pow_two_sub_one_eq_mod x 3

theorem land_3 (x : Nat) : x &&& 3 = x % 2 ^ 2 :=
  Nat.and_pow_two_sub_one_eq_mod x 2

theorem land_2 (x : Nat) : x &&& 2 = (x / 2 ^ 1 % 2 ^ 1) * 2 ^ 1 :=
  land_run x 1 1 2 (by decide)

theorem land_0x10 (x : Nat) : x &&& 0x10 = (x / 2 ^ 4 % 2 ^ 1) * 2 ^ 4 :=
  land_run x 4 1 0x10 (by decide)

theorem land_0x60 (x : Nat) : x &&& 0x60 = (x / 2 ^ 5 % 2 ^ 2) * 2 ^ 5 :=
  land_run x 5 2 0x60 (by decide)

theorem land_0x800000 (x : Nat) : x &&& 0x800000 = (x / 2 ^ 23 % 2 ^ 1) * 2 ^ 23 :=
  land_run x 23 1 0x800000 (by decide)

theorem land_bit20 (x : Nat) : x &&& (1 <<< 20) = (x / 2 ^ 20 % 2 ^ 1) * 2 ^ 20 :=
  land_run x 20 1 (1 <<< 20) (by decide)

theorem land_0x90 (x : Nat) :
    x &&& 0x90 = (x / 2 ^ 5 / 2 ^ 2 % 2 ^ 1) * 2 ^ 2 * 2 ^ 5 + (x % 2 ^ 5 / 2 ^ 4 % 2 ^ 1) * 2 ^ 4 :=
  land_two_runs x 0x90 5 4 16 2 1 4 1 (by decide) (by decide) (by decide) (by decide)

theorem land_0b1001 (x : Nat) :
    x &&& 0b1001 = (x / 2 ^ 1 / 2 ^ 2 % 2 ^ 1) * 2 ^ 2 * 2 ^ 1 + (x % 2 ^ 1 / 2 ^ 0 % 2 ^ 1) * 2 ^ 0 :=
  land_two_runs x 0b1001 1 4 1 2 1 0 1 (by decide) (by decide) (by decide) (by decide)

theorem land_0x6000F0 (x : Nat) :
    x &&& 0x6000F0
      = (x / 2 ^ 8 / 2 ^ 13 % 2 ^ 2) * 2 ^ 13 * 2 ^ 8 + (x % 2 ^ 8 / 2 ^ 4 % 2 ^ 4) * 2 ^ 4 :=
  land_two_runs x 0x6000F0 8 0x6000 0xF0 13 2 4 4 (by decide) (by decide) (by decide) (by decide)

theorem land_0x1000010 (x : Nat) :
    x &&& 0x1000010
      = (x / 2 ^ 8 / 2 ^ 16 % 2 ^ 1) * 2 ^ 16 * 2 ^ 8 + (x % 2 ^ 8 / 2 ^ 4 % 2 ^ 1) * 2 ^ 4 :=
  land_two_runs x 0x1000010 8 0x10000 0x10 16 1 4 1 (by decide) (by decide) (by decide) (by decide)

theorem lor_0xFF000000 (x : Nat) (h : x < 2 ^ 24) : x ||| 0xFF000000 = x + 0xFF000000 :=
  lor_disjoint x 0xFF 24 h

theorem bne_zero_eq_false (n : Nat) : ((n != 0) = false) = (n = 0) := by
  simp

/-! ## What each sub-decoder delivers to the recording client -/

theorem data_processing_delivers (c op : Nat) :
    (detail.decode_data_processing c op recorder).condition = some c ∧
      (detail.decode_data_processing c op recorder).isBranchRelative = false :=
  ⟨rfl, rfl⟩

theorem move_status_register_delivers (c op : Nat) :
    (detail.decode_move_status_register c op recorder).condition = some c ∧
      (detail.decode_move_status_register c op recorder).isBranchRelative = false :=
  ⟨rfl, rfl⟩

theorem move_register_status_delivers (c op : Nat) :
    (detail.decode_move_register_status c op recorder).condition = some c ∧
      (detail.decode_move_register_status c op recorder).isBranchRelative = false :=
  ⟨rfl, rfl⟩

theorem multiply_delivers (c op : Nat) :
    (detail.decode_multiply c op recorder).condition = some c ∧
      (detail.decode_multiply c op recorder).isBranchRelative = false :=
  ⟨rfl, rfl⟩

theorem multiply_long_delivers (c op : Nat) :
    (detail.decode_multiply_long c op recorder).condition = some c ∧
      (detail.decode_multiply_long c op recorder).isBranchRelative = false :=
  ⟨rfl, rfl⟩

theorem single_data_swap_delivers (c op : Nat) :
    (detail.decode_single_data_swap c op recorder).condition = some c ∧
      (detail.decode_single_data_swap c op recorder).isBranchRelative = false :=
  ⟨rfl, rfl⟩

theorem branch_exchange_delivers (c op : Nat) :
    (detail.decode_branch_exchange c op recorder).condition = some c ∧
      (detail.decode_branch_exchange c op recorder).isBranchRelative = false :=
  ⟨rfl, rfl⟩

theorem halfword_signed_transfer_delivers (c op : Nat) :
    (detail.decode_halfword_signed_transfer c op recorder).condition = some c ∧
      (detail.decode_halfword_signed_transfer c op recorder).isBranchRelative = false :=
  ⟨rfl, rfl⟩

theorem single_data_transfer_delivers (c op : Nat) :
    (detail.decode_single_data_transfer c op recorder).condition = some c ∧
      (detail.decode_single_data_transfer c op recorder).isBranchRelative = false :=
  ⟨rfl, rfl⟩

theorem block_data_transfer_delivers (c op : Nat) :
    (detail.decode_block_data_transfer c op recorder).condition = some c ∧
      (detail.decode_block_data_transfer c op recorder).isBranchRelative = false :=
  ⟨rfl, rfl⟩

theorem coprocessor_register_transfer_delivers (c op : Nat) :
    (detail.decode_coprocessor_register_transfer c op recorder).condition = some c ∧
      (detail.decode_coprocessor_register_transfer c op recorder).isBranchRelative = false :=
  ⟨rfl, rfl⟩

theorem svc_delivers (c op : Nat) :
    (detail.decode_svc c op recorder).condition = some c ∧
      (detail.decode_svc c op recorder).isBranchRelative = false :=
  ⟨rfl, rfl⟩

theorem count_leading_zeros_delivers (c op : Nat) :
    (detail.decode_count_leading_zeros c op recorder).condition = some c ∧
      (detail.decode_count_leading_zeros c op recorder).isBranchRelative = false :=
  ⟨rfl, rfl⟩

theorem branch_relative_delivers (c op : Nat) :
    (detail.decode_branch_relative c op recorder).condition = some c :=
  rfl

theorem branch_link_exchange_relative_delivers (op : Nat) :
    (detail.decode_branch_link_exchange_relative op recorder).condition = some Condition.AL :=
  rfl

/-- The saturating add/sub sub-decoder delivers `Undefined` only when bit 23
or bit 20 of its argument is set. -/
theorem saturating_add_sub_delivers (c op : Nat) :
    ((detail.decode_saturating_add_sub c op recorder).condition = some c ∧
      (detail.decode_saturating_add_sub c op recorder).isBranchRelative = false) ∨
    (op / 2 ^ 23 % 2 = 1 ∨ op / 2 ^ 20 % 2 = 1) := by
  simp only [detail.decode_saturating_add_sub, get_field_eq, land_0b1001]
  split_ifs with h
  · right
    omega
  · left
    exact ⟨rfl, rfl⟩

/-- The signed halfword multiply sub-decoder delivers `Undefined` only when
the sub-opcode in bits 24..21 of its argument is outside 8..11. -/
theorem signed_halfword_multiply_delivers (c op : Nat) :
    ((detail.decode_signed_halfword_multiply c op recorder).condition = some c ∧
      (detail.decode_signed_halfword_multiply c op recorder).isBranchRelative = false) ∨
    ¬ (8 ≤ op / 2 ^ 21 % 2 ^ 4 ∧ op / 2 ^ 21 % 2 ^ 4 ≤ 11) := by
  simp only [detail.decode_signed_halfword_multiply, get_field_eq]
  split_ifs with h1 h2 h3
  · left; exact ⟨rfl, rfl⟩
  · left; exact ⟨rfl, rfl⟩
  · left; exact ⟨rfl, rfl⟩
  · right
    omega

/-- A property of both branches of a conditional holds of the conditional. -/
theorem ite_prop {α : Type} {P : α → Prop} {c : Prop} [Decidable c] {a b : α}
    (ha : c → P a) (hb : ¬ c → P b) : P (if c then a else b) := by
  split_ifs with h
  · exact ha h
  · exact hb h

/-- Every word either is handed to `Undefined` unchanged, or a descriptor is
delivered whose condition is the word's condition field (`AL` for the
unconditional encoding, which then is the branch group `101`); a
`BranchRelative` descriptor is delivered only for the branch group. -/
theorem decode_arm_outcome (W : Nat) :
    decode_arm W recorder = Decoded.Undefined W ∨
    ((decode_arm W recorder).condition
        = some (if bit.get_field W 28 4 = Condition.NV then Condition.AL
            else bit.get_field W 28 4) ∧
      (bit.get_field W 28 4 = Condition.NV → bit.get_field W 25 3 = 0b101) ∧
      ((decode_arm W recorder).isBranchRelative = true → bit.get_field W 25 3 = 0b101)) := by
  obtain ⟨P, hP⟩ : ∃ P : Decoded → Prop, P = fun r => r = Decoded.Undefined W ∨
      (r.condition = some (if W / 2 ^ 28 % 2 ^ 4 = Condition.NV then Condition.AL
            else W / 2 ^ 28 % 2 ^ 4) ∧
        (W / 2 ^ 28 % 2 ^ 4 = Condition.NV → W / 2 ^ 25 % 2 ^ 3 = 0b101) ∧
        (r.isBranchRelative = true → W / 2 ^ 25 % 2 ^ 3 = 0b101)) := ⟨_, rfl⟩
  suffices h : P (decode_arm W recorder) by
    rw [hP] at h
    simpa only [get_field_eq] using h
  simp only [decode_arm, get_field_eq, get_bit_eq, land_0x0FFFFFFF, land_bit20, land_0xF, land_7,
    land_3, land_0x90, land_0x60, land_0xF0_low, land_0x6000F0, land_0x10, land_0x1000010,
    Nat.shiftRight_eq_div_pow, bne_zero_eq_false]
  repeat' (with_reducible refine ite_prop (fun h => ?_) (fun h => ?_))
  all_goals subst hP
  all_goals first
    | exact Or.inl rfl
    | exact Or.inr ⟨by rw [if_neg (by assumption)]; rfl, fun hn => absurd hn (by assumption),
        fun hb => Bool.noConfusion hb⟩
    | exact Or.inr ⟨by rw [if_neg (by assumption)]; rfl, fun hn => absurd hn (by assumption),
        fun _ => by omega⟩
    | exact Or.inr ⟨by rw [if_pos (by assumption)]; rfl, fun _ => by assumption,
        fun _ => by assumption⟩
    | skip
  · rcases saturating_add_sub_delivers (W / 2 ^ 28 % 2 ^ 4) (W % 2 ^ 28) with ⟨h1, h2⟩ | h1
    · exact Or.inr ⟨by rw [if_neg (by assumption), h1], fun hn => absurd hn (by assumption),
        fun hb => by rw [h2] at hb; cases hb⟩
    · exfalso; omega
  · rcases signed_halfword_multiply_delivers (W / 2 ^ 28 % 2 ^ 4) (W % 2 ^ 28) with ⟨h1, h2⟩ | h1
    · exact Or.inr ⟨by rw [if_neg (by assumption), h1], fun hn => absurd hn (by assumption),
        fun hb => by rw [h2] at hb; cases hb⟩
    · exfalso; omega

/-! ## The branch offset -/

theorem branch_offset_eq (x : Nat) :
    s32 (((if x % 2 ^ 24 / 2 ^ 23 % 2 ^ 1 * 2 ^ 23 ≠ 0 then x % 2 ^ 24 ||| 0xFF000000 else x % 2 ^ 24) * 4) % 2 ^ 32)
      = 4 * sign_extend_24 x := by
  have hlt : x % 2 ^ 24 < 2 ^ 24 := Nat.mod_lt _ (by decide)
  rw [lor_0xFF000000 _ hlt]
  unfold s32 sign_extend_24
  split_ifs <;> omega

theorem sign_extend_24_opcode (W : Nat) :
    sign_extend_24 (W % 2 ^ 28) = sign_extend_24 (W / 2 ^ 0 % 2 ^ 24) := by
  unfold sign_extend_24
  have e : W % 2 ^ 28 % 2 ^ 24 = W / 2 ^ 0 % 2 ^ 24 % 2 ^ 24 := by omega
  rw [e]

theorem blx_offset_eq (x : Nat) :
    s32 ((((if x % 2 ^ 24 / 2 ^ 23 % 2 ^ 1 * 2 ^ 23 ≠ 0 then x % 2 ^ 24 ||| 0xFF000000
              else x % 2 ^ 24) * 4) % 2 ^ 32
            + x / 2 ^ 23 % 2 ^ 2 / 2 ^ 1 % 2 ^ 1 * 2 ^ 1) % 2 ^ 32)
      = 4 * sign_extend_24 x + 2 * ((x / 2 ^ 24 % 2 ^ 1 : Nat) : Int) := by
  have hlt : x % 2 ^ 24 < 2 ^ 24 := Nat.mod_lt _ (by decide)
  have hb : x / 2 ^ 23 % 2 ^ 2 / 2 ^ 1 % 2 ^ 1 = x / 2 ^ 24 % 2 ^ 1 := by omega
  have hb1 : x / 2 ^ 24 % 2 ^ 1 ≤ 1 := by omega
  rw [lor_0xFF000000 _ hlt, hb]
  unfold s32 sign_extend_24
  generalize x / 2 ^ 24 % 2 ^ 1 = b at hb1 ⊢
  generalize x % 2 ^ 24 = y at hlt ⊢
  split_ifs <;> omega

/-- A 24-bit field with its top bit set has a negative signed value. -/
theorem sign_extend_24_neg (W : Nat) (h : bit.get_flag W 23 = true) :
    sign_extend_24 (bit.get_field W 0 24) ≤ -1 := by
  simp only [get_flag_eq, decide_eq_true_eq] at h
  simp only [get_field_eq, sign_extend_24]
  split_ifs <;> omega

/-- The conditional branch group `101` decodes to `BranchRelative`. -/
theorem branch_relative_eq {T : Type} (client : ARMDecodeClient T) (W : Nat)
    (hc : bit.get_field W 28 4 ≠ Condition.NV)
    (hg : bit.get_field W 25 3 = 0b101) :
    decode_arm W client = client.HandleBranchRelative {
      condition := bit.get_field W 28 4
      offset := 4 * sign_extend_24 (bit.get_field W 0 24)
      link := bit.get_flag W 24
      exchange := false } := by
  simp only [get_field_eq] at hc hg
  simp only [decode_arm, detail.decode_branch_relative, get_field_eq, get_flag_eq, land_0x0FFFFFFF, land_0xFFFFFF, land_0x800000,
    Nat.shiftRight_eq_div_pow]
  rw [if_neg hc, if_neg (by omega), if_neg (by omega), if_neg (by omega), if_neg (by omega), if_neg (by omega), if_pos (by omega)]
  rw [branch_offset_eq, sign_extend_24_opcode]
  simp (disch := decide) only [field_of_opcode]

/-- The unconditional branch group `101` decodes to `BranchRelative` (BLX). -/
theorem branch_link_exchange_eq {T : Type} (client : ARMDecodeClient T) (W : Nat)
    (hc : bit.get_field W 28 4 = Condition.NV)
    (hg : bit.get_field W 25 3 = 0b101) :
    decode_arm W client = client.HandleBranchRelative {
      condition := Condition.AL
      offset := 4 * sign_extend_24 (bit.get_field W 0 24) + 2 * ((bit.get_bit W 24 : Nat) : Int)
      link := true
      exchange := true } := by
  simp only [get_field_eq] at hc hg
  simp only [decode_arm, detail.decode_branch_link_exchange_relative, get_field_eq, get_bit_eq,
    land_0x0FFFFFFF, land_0xFFFFFF, land_0x800000, land_7, land_2, Nat.shiftRight_eq_div_pow]
  rw [if_pos hc, if_pos (by omega)]
  rw [blx_offset_eq, sign_extend_24_opcode]
  simp (disch := decide) only [field_of_opcode]

/-! ## Claims -/

/-- Claim C1: whenever `decode_arm` hands a word to `Undefined`, that word is
the full instruction word `W`, condition bits included, on every path of the
decoder. (The saturating add/sub and signed halfword multiply sub-decoders
would pass the word with its condition bits cleared, but no word that
`decode_arm` routes to them reaches their `Undefined` exit.) -/
theorem decode_arm_undefined_word (W w : Nat)
    (h : decode_arm W recorder = Decoded.Undefined w) : w = W := by
  rcases decode_arm_outcome W with h0 | ⟨hc, -, -⟩
  · rw [h0] at h
    cases h
    rfl
  · rw [h] at hc
    cases hc

/-- Claim C1, witness: the undefined word `0xE0400090` is handed over unchanged. -/
theorem decode_arm_undefined_word_witness :
    decode_arm 0xE0400090 recorder = Decoded.Undefined 0xE0400090 ∧
    (0xE0400090 : Nat) = 0xE0400090 :=
  ⟨by decide, decode_arm_undefined_word 0xE0400090 0xE0400090 (by decide)⟩

/-- Claim C2: when `decode_arm` delivers a descriptor (not `Undefined`), the
descriptor's condition is the word's condition field `W[31..28]` if that
field is not `NV`; if it is `NV` the word is the unconditional branch
encoding (group `101`) and the descriptor's condition is `AL`. -/
theorem decode_arm_condition (W : Nat)
    (hd : (decode_arm W recorder).isUndefined = false) :
    (bit.get_field W 28 4 ≠ Condition.NV →
      (decode_arm W recorder).condition = some (bit.get_field W 28 4)) ∧
    (bit.get_field W 28 4 = Condition.NV →
      bit.get_field W 25 3 = 0b101 ∧
      (decode_arm W recorder).condition = some Condition.AL) := by
  rcases decode_arm_outcome W with h0 | ⟨hc, hn, -⟩
  · rw [h0] at hd
    cases hd
  · constructor
    · intro hne
      rw [hc, if_neg hne]
    · intro he
      exact ⟨hn he, by rw [hc, if_pos he]⟩

/-- Claim C2, witness: `0xE3A00001` (condition `AL`) and the unconditional branch
`0xFA000000` both deliver a descriptor with condition `AL`. -/
theorem decode_arm_condition_witness :
    (decode_arm 0xE3A00001 recorder).isUndefined = false ∧
    ((bit.get_field 0xE3A00001 28 4 ≠ Condition.NV →
      (decode_arm 0xE3A00001 recorder).condition = some (bit.get_field 0xE3A00001 28 4)) ∧
    (bit.get_field 0xE3A00001 28 4 = Condition.NV →
      bit.get_field 0xE3A00001 25 3 = 0b101 ∧
      (decode_arm 0xE3A00001 recorder).condition = some Condition.AL)) ∧
    (decode_arm 0xE3A00001 recorder).condition = some Condition.AL ∧
    (decode_arm 0xFA000000 recorder).condition = some Condition.AL :=
  ⟨by decide, decode_arm_condition 0xE3A00001 (by decide), by decide, by decide⟩

/-- Claim C3: a word with condition not `NV` and `W[27..25] = 101` decodes to
`BranchRelative` with `offset = 4 * sign_extend_24(W[23..0])`, `link = W[24]`
and `exchange = false` (and the word's condition), whatever the client. -/
theorem decode_arm_branch_relative {T : Type} (client : ARMDecodeClient T) (W : Nat)
    (hc : bit.get_field W 28 4 ≠ Condition.NV)
    (hg : bit.get_field W 25 3 = 0b101) :
    decode_arm W client = client.HandleBranchRelative {
      condition := bit.get_field W 28 4
      offset := 4 * sign_extend_24 (bit.get_field W 0 24)
      link := bit.get_flag W 24
      exchange := false } :=
  branch_relative_eq client W hc hg

/-- Claim C3, witness: `0xEAFFFFFE` gives `offset = -8`, `link = false`,
`exchange = false`. -/
theorem decode_arm_branch_relative_witness :
    (bit.get_field 0xEAFFFFFE 28 4 ≠ Condition.NV ∧ bit.get_field 0xEAFFFFFE 25 3 = 0b101) ∧
    decode_arm 0xEAFFFFFE recorder = Decoded.BranchRelative {
      condition := Condition.AL, offset := -8, link := false, exchange := false } :=
  ⟨⟨by decide, by decide⟩,
    (decode_arm_branch_relative recorder 0xEAFFFFFE (by decide) (by decide)).trans (by decide)⟩

/-- Claim C4: a word with condition `NV` and `W[27..25] = 101` decodes to
`BranchRelative` with condition `AL`, `link = true`, `exchange = true` and
`offset = 4 * sign_extend_24(W[23..0]) + 2 * W[24]`, whatever the client. -/
theorem decode_arm_branch_link_exchange {T : Type} (client : ARMDecodeClient T) (W : Nat)
    (hc : bit.get_field W 28 4 = Condition.NV)
    (hg : bit.get_field W 25 3 = 0b101) :
    decode_arm W client = client.HandleBranchRelative {
      condition := Condition.AL
      offset := 4 * sign_extend_24 (bit.get_field W 0 24) + 2 * ((bit.get_bit W 24 : Nat) : Int)
      link := true
      exchange := true } :=
  branch_link_exchange_eq client W hc hg

/-- Claim C4, witness: `0xFA000000` gives `offset = 0`, `link = true`,
`exchange = true`. -/
theorem decode_arm_branch_link_exchange_witness :
    (bit.get_field 0xFA000000 28 4 = Condition.NV ∧ bit.get_field 0xFA000000 25 3 = 0b101) ∧
    decode_arm 0xFA000000 recorder = Decoded.BranchRelative {
      condition := Condition.AL, offset := 0, link := true, exchange := true } :=
  ⟨⟨by decide, by decide⟩,
    (decode_arm_branch_link_exchange recorder 0xFA000000 (by decide) (by decide)).trans (by decide)⟩

/-- Claim C5: whenever `decode_arm` delivers a `BranchRelative` descriptor for
a word whose offset field has its top bit set (`W[23] = 1`), the descriptor's
signed 32-bit offset is strictly negative. -/
theorem decode_arm_branch_offset_negative (W : Nat) (d : ARMBranchRelative)
    (h : decode_arm W recorder = Decoded.BranchRelative d)
    (h23 : bit.get_flag W 23 = true) : d.offset < 0 := by
  have hs := sign_extend_24_neg W h23
  have hg : bit.get_field W 25 3 = 0b101 := by
    rcases decode_arm_outcome W with h0 | ⟨-, -, hb⟩
    · rw [h0] at h
      cases h
    · exact hb (by rw [h]; rfl)
  by_cases hc : bit.get_field W 28 4 = Condition.NV
  · rw [branch_link_exchange_eq recorder W hc hg] at h
    have hb : bit.get_bit W 24 ≤ 1 := by
      rw [get_bit_eq]; omega
    cases h
    show 4 * sign_extend_24 (bit.get_field W 0 24) + 2 * ((bit.get_bit W 24 : Nat) : Int) < 0
    omega
  · rw [branch_relative_eq recorder W hc hg] at h
    cases h
    show 4 * sign_extend_24 (bit.get_field W 0 24) < 0
    omega

/-- Claim C5, witness: the unconditional branch `0xFBFFFFFF` (all offset bits and
bit 24 set) has offset `-2`. -/
theorem decode_arm_branch_offset_negative_witness :
    (decode_arm 0xFBFFFFFF recorder = Decoded.BranchRelative {
        condition := Condition.AL, offset := -2, link := true, exchange := true } ∧
      bit.get_flag 0xFBFFFFFF 23 = true) ∧
    (-2 : Int) < 0 :=
  ⟨⟨by decide, by decide⟩,
    decode_arm_branch_offset_negative 0xFBFFFFFF
      { condition := Condition.AL, offset := -2, link := true, exchange := true }
      (by decide) (by decide)⟩

/-- Claim C6: a word with condition not `NV` and `W[27..25] = 001` that is not
carved out (`W[20] = 1`, or sub-opcode `W[24..21]` outside 8..11) decodes to
`DataProcessing` with `immediate = true`, `opcode = W[24..21]`,
`set_flags = W[20]`, `reg_dst = W[15..12]`, `reg_op1 = W[19..16]`,
`op2_imm.value = W[7..0]` and `op2_imm.shift = 2 * W[11..8]`, an even rotate
amount in 0..30. -/
theorem decode_arm_data_processing_immediate {T : Type} (client : ARMDecodeClient T) (W : Nat)
    (hc : bit.get_field W 28 4 ≠ Condition.NV)
    (hg : bit.get_field W 25 3 = 0b001)
    (hn : bit.get_flag W 20 = true ∨ ¬ (8 ≤ bit.get_field W 21 4 ∧ bit.get_field W 21 4 ≤ 11)) :
    decode_arm W client = client.HandleDataProcessing {
      condition := bit.get_field W 28 4
      opcode := bit.get_field W 21 4
      immediate := true
      set_flags := bit.get_flag W 20
      reg_dst := bit.get_field W 12 4
      reg_op1 := bit.get_field W 16 4
      op2_reg := {
        reg := bit.get_field W 0 4
        shift := {
          type := bit.get_field W 5 2
          immediate := !bit.get_flag W 4
          amount_reg := bit.get_field W 8 4
          amount_imm := bit.get_field W 7 5 } }
      op2_imm := {
        value := bit.get_field W 0 8
        shift := 2 * bit.get_field W 8 4 } } ∧
    2 * bit.get_field W 8 4 % 2 = 0 ∧ 2 * bit.get_field W 8 4 ≤ 30 := by
  simp only [get_field_eq, get_flag_eq, decide_eq_true_eq] at hc hg hn
  refine ⟨?_, by omega, by simp only [get_field_eq]; omega⟩
  simp only [decode_arm, detail.decode_data_processing, get_field_eq, get_flag_eq,
    land_0x0FFFFFFF, land_bit20, land_0xF, Nat.shiftRight_eq_div_pow, bne_zero_eq_false]
  have himm : decide (W % 2 ^ 28 / 2 ^ 25 % 2 ^ 1 = 1) = true := by
    rw [decide_eq_true_eq]; omega
  have hsh : W % 2 ^ 28 / 2 ^ 8 % 2 ^ 4 * 2 % 2 ^ 32 = 2 * (W / 2 ^ 8 % 2 ^ 4) := by omega
  rw [if_neg hc, if_neg (by omega), if_pos (by omega), himm, hsh]
  by_cases hs : W % 2 ^ 28 / 2 ^ 20 % 2 ^ 1 * 2 ^ 20 = 0
  · rw [if_pos hs, if_neg (by omega), if_neg (by omega)]
    simp (disch := decide) only [field_of_opcode]
  · rw [if_neg hs]
    simp (disch := decide) only [field_of_opcode]

/-- Claim C6, witness: `0xE3A00001` gives condition `AL`, opcode `MOV`,
`immediate = true`, `reg_dst = 0`, `op2_imm.value = 1`, `op2_imm.shift = 0`. -/
theorem decode_arm_data_processing_immediate_witness :
    (bit.get_field 0xE3A00001 28 4 ≠ Condition.NV ∧ bit.get_field 0xE3A00001 25 3 = 0b001 ∧
      (bit.get_flag 0xE3A00001 20 = true ∨
        ¬ (8 ≤ bit.get_field 0xE3A00001 21 4 ∧ bit.get_field 0xE3A00001 21 4 ≤ 11))) ∧
    decode_arm 0xE3A00001 recorder = Decoded.DataProcessing {
      condition := Condition.AL
      opcode := Opcode.MOV
      immediate := true
      set_flags := false
      reg_dst := 0
      reg_op1 := 0
      op2_reg := {
        reg := 1
        shift := { type := 0, immediate := true, amount_reg := 0, amount_imm := 0 } }
      op2_imm := { value := 1, shift := 0 } } :=
  ⟨⟨by decide, by decide, by decide⟩,
    (decode_arm_data_processing_immediate recorder 0xE3A00001 (by decide) (by decide)
      (by decide)).1.trans (by decide)⟩

/-- Claim C7: for a word with condition not `NV` and `W[27..25] = 001`: with
`S = W[20] = 0` and sub-opcode `W[24..21]` 8 or 10 the word is undefined; with
`S = 0` and sub-opcode 9 or 11 it decodes to `MoveStatusRegister` with
`immediate = true`, `spsr = W[22]`, `fsxc = W[19..16]` and
`imm = rotate_right(W[7..0], 2 * W[11..8])`; in every other case it decodes
to a `DataProcessing` descriptor with `immediate = true`. -/
theorem decode_arm_group_001 {T : Type} (client : ARMDecodeClient T) (W : Nat)
    (hc : bit.get_field W 28 4 ≠ Condition.NV)
    (hg : bit.get_field W 25 3 = 0b001) :
    (bit.get_flag W 20 = false → (bit.get_field W 21 4 = 8 ∨ bit.get_field W 21 4 = 10) →
      decode_arm W client = client.Undefined W) ∧
    (bit.get_flag W 20 = false → (bit.get_field W 21 4 = 9 ∨ bit.get_field W 21 4 = 11) →
      decode_arm W client = client.HandleMoveStatusRegister {
        condition := bit.get_field W 28 4
        immediate := true
        spsr := bit.get_flag W 22
        fsxc := bit.get_field W 16 4
        reg := bit.get_field W 0 4
        imm := bit.rotate_right (bit.get_field W 0 8) (2 * bit.get_field W 8 4) }) ∧
    (¬ (bit.get_flag W 20 = false ∧ 8 ≤ bit.get_field W 21 4 ∧ bit.get_field W 21 4 ≤ 11) →
      ∃ d, d.immediate = true ∧ decode_arm W client = client.HandleDataProcessing d) := by
  simp only [get_field_eq, get_flag_eq, decide_eq_false_iff_not] at hc hg ⊢
  simp only [decode_arm, get_field_eq, land_0x0FFFFFFF, land_bit20, land_0xF,
    Nat.shiftRight_eq_div_pow, bne_zero_eq_false]
  rw [if_neg hc, if_neg (by omega), if_pos (by omega)]
  refine ⟨fun hs ho => ?_, fun hs ho => ?_, fun hn => ?_⟩
  · rw [if_pos (by omega), if_pos (by omega)]
  · rw [if_pos (by omega), if_neg (by omega), if_pos (by omega)]
    simp only [detail.decode_move_status_register, get_field_eq, get_flag_eq]
    have himm : decide (W % 2 ^ 28 / 2 ^ 25 % 2 ^ 1 = 1) = true := by
      rw [decide_eq_true_eq]; omega
    have hsh : W % 2 ^ 28 / 2 ^ 8 % 2 ^ 4 * 2 % 2 ^ 32 = 2 * (W / 2 ^ 8 % 2 ^ 4) := by omega
    have hv : W % 2 ^ 28 % 2 ^ 8 = W / 2 ^ 0 % 2 ^ 8 := by omega
    rw [himm, hsh, hv]
    simp (disch := decide) only [field_of_opcode]
  · have himm : bit.get_flag (W % 2 ^ 28) 25 = true := by
      rw [get_flag_eq, decide_eq_true_eq]; omega
    by_cases hs : W % 2 ^ 28 / 2 ^ 20 % 2 ^ 1 * 2 ^ 20 = 0
    · rw [if_pos hs, if_neg (by omega), if_neg (by omega)]
      exact ⟨_, himm, rfl⟩
    · rw [if_neg hs]
      exact ⟨_, himm, rfl⟩

/-- Claim C7, witness: `0xE328F00A` (`S = 0`, sub-opcode 9) decodes to
`MoveStatusRegister` with the immediate 10. -/
theorem decode_arm_group_001_witness :
    (bit.get_field 0xE328F00A 28 4 ≠ Condition.NV ∧ bit.get_field 0xE328F00A 25 3 = 0b001 ∧
      bit.get_flag 0xE328F00A 20 = false ∧ bit.get_field 0xE328F00A 21 4 = 9) ∧
    decode_arm 0xE328F00A recorder = Decoded.MoveStatusRegister {
      condition := Condition.AL, immediate := true, spsr := false, fsxc := 8, reg := 10,
      imm := 10 } :=
  ⟨⟨by decide, by decide, by decide, by decide⟩,
    ((decode_arm_group_001 recorder 0xE328F00A (by decide) (by decide)).2.1 (by decide)
      (Or.inl (by decide))).trans (by decide)⟩

/-- Claim C8: a word with condition `NV` and `W[27..25]` other than `101` is
handed to `Undefined` unchanged, whatever its remaining bits and whatever
the client; no `Handle` is called. -/
theorem decode_arm_unconditional_undefined {T : Type} (client : ARMDecodeClient T) (W : Nat)
    (hc : bit.get_field W 28 4 = Condition.NV)
    (hg : bit.get_field W 25 3 ≠ 0b101) :
    decode_arm W client = client.Undefined W := by
  simp only [get_field_eq] at hc hg
  simp only [decode_arm, get_field_eq, land_7, Nat.shiftRight_eq_div_pow]
  rw [if_pos hc, if_neg hg]

/-- Claim C8, witness: `0xF7F0F0F0` yields `Undefined 0xF7F0F0F0`. -/
theorem decode_arm_unconditional_undefined_witness :
    (bit.get_field 0xF7F0F0F0 28 4 = Condition.NV ∧ bit.get_field 0xF7F0F0F0 25 3 ≠ 0b101) ∧
    decode_arm 0xF7F0F0F0 recorder = Decoded.Undefined 0xF7F0F0F0 :=
  ⟨⟨by decide, by decide⟩,
    decode_arm_unconditional_undefined recorder 0xF7F0F0F0 (by decide) (by decide)⟩

/-- Claim C9, as stated, fails: the word `0xE0400090` has condition `AL`,
`W[27..25] = 000`, `W[7..4] = 1001` and `W[24..23] = 00`, and is undefined
rather than a multiply or a long multiply. -/
theorem decode_arm_multiply_space_counterexample :
    ¬ (∀ W : Nat, W < 2 ^ 32 → bit.get_field W 28 4 ≠ Condition.NV →
        bit.get_field W 25 3 = 0b000 → bit.get_field W 4 4 = 0b1001 →
        (bit.get_field W 23 2 = 0b00 ∨ bit.get_field W 23 2 = 0b01) →
        (∃ d, decode_arm W recorder = Decoded.Multiply d) ∨
        (∃ d, decode_arm W recorder = Decoded.MultiplyLong d)) := by
  intro h
  have hu : decode_arm 0xE0400090 recorder = Decoded.Undefined 0xE0400090 := by decide
  rcases h 0xE0400090 (by decide) (by decide) (by decide) (by decide) (by decide) with
    ⟨d, hd⟩ | ⟨d, hd⟩
  · rw [hu] at hd; cases hd
  · rw [hu] at hd; cases hd

/-- Claim C9, amended: for a word with condition not `NV`, `W[27..25] = 000`
and `W[7..4] = 1001`: sub-opcode `W[24..21]` 0 or 1 gives `Multiply`, 4..7
gives `MultiplyLong`, 2 or 3 gives `Undefined`; `W[24..23] = 10` gives
`SingleDataSwap` and `W[24..23] = 11` gives `Undefined`. -/
theorem decode_arm_multiply_space (W : Nat)
    (hc : bit.get_field W 28 4 ≠ Condition.NV)
    (hg : bit.get_field W 25 3 = 0b000)
    (hm : bit.get_field W 4 4 = 0b1001) :
    ((bit.get_field W 21 4 = 0 ∨ bit.get_field W 21 4 = 1) →
      ∃ d, decode_arm W recorder = Decoded.Multiply d) ∧
    ((4 ≤ bit.get_field W 21 4 ∧ bit.get_field W 21 4 ≤ 7) →
      ∃ d, decode_arm W recorder = Decoded.MultiplyLong d) ∧
    ((bit.get_field W 21 4 = 2 ∨ bit.get_field W 21 4 = 3) →
      decode_arm W recorder = Decoded.Undefined W) ∧
    (bit.get_field W 23 2 = 0b10 → ∃ d, decode_arm W recorder = Decoded.SingleDataSwap d) ∧
    (bit.get_field W 23 2 = 0b11 → decode_arm W recorder = Decoded.Undefined W) := by
  simp only [get_field_eq] at hc hg hm ⊢
  simp only [decode_arm, get_field_eq, land_0x0FFFFFFF, land_0x90, land_0x60, land_3,
    Nat.shiftRight_eq_div_pow]
  rw [if_neg hc, if_pos (by omega), if_pos (by omega), if_neg (by omega)]
  refine ⟨fun ho => ?_, fun ho => ?_, fun ho => ?_, fun ho => ?_, fun ho => ?_⟩
  · rw [if_pos (by omega), if_pos (by omega)]
    exact ⟨_, rfl⟩
  · rw [if_pos (by omega), if_neg (by omega), if_pos (by omega)]
    exact ⟨_, rfl⟩
  · rw [if_pos (by omega), if_neg (by omega), if_neg (by omega)]
    rfl
  · rw [if_neg (by omega), if_pos (by omega)]
    exact ⟨_, rfl⟩
  · rw [if_neg (by omega), if_neg (by omega), if_pos (by omega)]
    rfl

/-- Claim C9 amended, witness: `0xE0854392` (sub-opcode 4) decodes to
`MultiplyLong`. -/
theorem decode_arm_multiply_space_witness :
    (bit.get_field 0xE0854392 28 4 ≠ Condition.NV ∧ bit.get_field 0xE0854392 25 3 = 0b000 ∧
      bit.get_field 0xE0854392 4 4 = 0b1001 ∧
      (4 ≤ bit.get_field 0xE0854392 21 4 ∧ bit.get_field 0xE0854392 21 4 ≤ 7)) ∧
    ∃ d, decode_arm 0xE0854392 recorder = Decoded.MultiplyLong d :=
  ⟨⟨by decide, by decide, by decide, by decide⟩,
    (decode_arm_multiply_space 0xE0854392 (by decide) (by decide) (by decide)).2.1
      (by decide)⟩

/-- Claim C10: a word with condition not `NV`, `W[27..22] = 000000` and
`W[7..4] = 1001` decodes to `Multiply` with `reg_dst = W[19..16]`,
`reg_op1 = W[3..0]`, `reg_op2 = W[11..8]`, `reg_op3 = W[15..12]`,
`accumulate = W[21]` and `set_flags = W[20]`, whatever the client. -/
theorem decode_arm_multiply {T : Type} (client : ARMDecodeClient T) (W : Nat)
    (hc : bit.get_field W 28 4 ≠ Condition.NV)
    (hg : bit.get_field W 22 6 = 0b000000)
    (hm : bit.get_field W 4 4 = 0b1001) :
    decode_arm W client = client.HandleMultiply {
      condition := bit.get_field W 28 4
      accumulate := bit.get_flag W 21
      set_flags := bit.get_flag W 20
      reg_op1 := bit.get_field W 0 4
      reg_op2 := bit.get_field W 8 4
      reg_op3 := bit.get_field W 12 4
      reg_dst := bit.get_field W 16 4 } := by
  simp only [get_field_eq] at hc hg hm
  simp only [decode_arm, detail.decode_multiply, get_field_eq, get_flag_eq, land_0x0FFFFFFF,
    land_0x90, land_0x60, land_3, Nat.shiftRight_eq_div_pow]
  rw [if_neg hc, if_pos (by omega), if_pos (by omega), if_neg (by omega), if_pos (by omega),
    if_pos (by omega)]
  simp (disch := decide) only [field_of_opcode]

/-- Claim C10, witness: `0xE0010392` gives `reg_dst = 1`, `reg_op1 = 2`,
`reg_op2 = 3`, `accumulate = false`, `set_flags = false`. -/
theorem decode_arm_multiply_witness :
    (bit.get_field 0xE0010392 28 4 ≠ Condition.NV ∧ bit.get_field 0xE0010392 22 6 = 0b000000 ∧
      bit.get_field 0xE0010392 4 4 = 0b1001) ∧
    decode_arm 0xE0010392 recorder = Decoded.Multiply {
      condition := Condition.AL, accumulate := false, set_flags := false,
      reg_op1 := 2, reg_op2 := 3, reg_op3 := 0, reg_dst := 1 } :=
  ⟨⟨by decide, by decide, by decide⟩,
    (decode_arm_multiply recorder 0xE0010392 (by decide) (by decide) (by decide)).trans
      (by decide)⟩

/-! ## Branch and exchange -/

/-- The two branch-and-exchange patterns of the miscellaneous space decode to
`BranchExchange` with `link` taken from bit 5. -/
theorem branch_exchange_eq {T : Type} (client : ARMDecodeClient T) (W : Nat)
    (hc : bit.get_field W 28 4 ≠ Condition.NV)
    (hg : bit.get_field W 25 3 = 0b000)
    (hs : bit.get_flag W 20 = false)
    (h2423 : bit.get_field W 23 2 = 0b10)
    (h2221 : bit.get_field W 21 2 = 0b01)
    (h74 : bit.get_field W 4 4 = 0b0001 ∨ bit.get_field W 4 4 = 0b0011) :
    decode_arm W client = client.HandleBranchExchange {
      condition := bit.get_field W 28 4
      reg := bit.get_field W 0 4
      link := bit.get_flag W 5 } := by
  simp only [get_field_eq, get_flag_eq, decide_eq_false_iff_not] at hc hg hs h2423 h2221 h74
  simp only [decode_arm, detail.decode_branch_exchange, get_field_eq, get_flag_eq,
    land_0x0FFFFFFF, land_bit20, land_0xF, land_0x90, land_0xF0_low, land_0x6000F0,
    Nat.shiftRight_eq_div_pow, bne_zero_eq_false]
  rw [if_neg hc, if_pos (by omega), if_neg (by omega), if_pos (by omega), if_neg (by omega)]
  rcases h74 with h | h
  · rw [if_pos (by omega)]
    simp (disch := decide) only [field_of_opcode]
  · rw [if_neg (by omega), if_neg (by omega), if_neg (by omega), if_pos (by omega)]
    simp (disch := decide) only [field_of_opcode]

/-- A `BranchExchange` descriptor is delivered only for the two
branch-and-exchange patterns of the miscellaneous space. -/
theorem decode_arm_branch_exchange_only (W : Nat)
    (h : (decode_arm W recorder).isBranchExchange = true) :
    bit.get_field W 28 4 ≠ Condition.NV ∧ bit.get_field W 25 3 = 0b000 ∧
    bit.get_flag W 20 = false ∧ bit.get_field W 23 2 = 0b10 ∧ bit.get_field W 21 2 = 0b01 ∧
    (bit.get_field W 4 4 = 0b0001 ∨ bit.get_field W 4 4 = 0b0011) := by
  revert h
  obtain ⟨P, hP⟩ : ∃ P : Decoded → Prop, P = fun r => r.isBranchExchange = true →
      (W / 2 ^ 28 % 2 ^ 4 ≠ Condition.NV ∧ W / 2 ^ 25 % 2 ^ 3 = 0 ∧
        ¬ W / 2 ^ 20 % 2 ^ 1 = 1 ∧ W / 2 ^ 23 % 2 ^ 2 = 2 ∧ W / 2 ^ 21 % 2 ^ 2 = 1 ∧
        (W / 2 ^ 4 % 2 ^ 4 = 1 ∨ W / 2 ^ 4 % 2 ^ 4 = 3)) := ⟨_, rfl⟩
  suffices h : P (decode_arm W recorder) by
    rw [hP] at h
    simpa only [get_field_eq, get_flag_eq, decide_eq_false_iff_not] using h
  simp only [decode_arm, get_field_eq, get_bit_eq, land_0x0FFFFFFF, land_bit20, land_0xF, land_7,
    land_3, land_0x90, land_0x60, land_0xF0_low, land_0x6000F0, land_0x10, land_0x1000010,
    Nat.shiftRight_eq_div_pow, bne_zero_eq_false]
  repeat' (with_reducible refine ite_prop (fun h => ?_) (fun h => ?_))
  all_goals subst hP
  all_goals first
    | exact fun hb => Bool.noConfusion hb
    | exact fun _ => ⟨by assumption, by omega, by omega, by omega, by omega, by omega⟩
    | skip
  · simp only [detail.decode_saturating_add_sub]
    split_ifs <;> exact fun hb => Bool.noConfusion hb
  · simp only [detail.decode_signed_halfword_multiply]
    split_ifs <;> exact fun hb => Bool.noConfusion hb

/-! ## Claims C11 to C16 -/

/-- Claim C11: for a word with condition not `NV`, `W[27..25] = 000`,
`W[20] = 0`, `W[24..23] = 10`, `W[22..21] = 01` and bit 7 clear, `W[7..4] = 0001`
decodes to `BranchExchange` with `reg = W[3..0]` and `link = false`, and
`W[7..4] = 0011` to `BranchExchange` with `reg = W[3..0]` and `link = true`;
and whenever a `BranchExchange` descriptor is delivered at all, its `link` is
true exactly when the word is the BLX-register encoding. -/
theorem decode_arm_branch_exchange {T : Type} (client : ARMDecodeClient T) (W : Nat) :
    (bit.get_field W 28 4 ≠ Condition.NV → bit.get_field W 25 3 = 0b000 →
      bit.get_flag W 20 = false → bit.get_field W 23 2 = 0b10 →
      bit.get_field W 21 2 = 0b01 → bit.get_flag W 7 = false →
      (bit.get_field W 4 4 = 0b0001 →
        decode_arm W client = client.HandleBranchExchange {
          condition := bit.get_field W 28 4, reg := bit.get_field W 0 4, link := false }) ∧
      (bit.get_field W 4 4 = 0b0011 →
        decode_arm W client = client.HandleBranchExchange {
          condition := bit.get_field W 28 4, reg := bit.get_field W 0 4, link := true })) ∧
    (∀ d, decode_arm W recorder = Decoded.BranchExchange d →
      (d.link = true ↔
        (bit.get_field W 28 4 ≠ Condition.NV ∧ bit.get_field W 25 3 = 0b000 ∧
          bit.get_flag W 20 = false ∧ bit.get_field W 23 2 = 0b10 ∧
          bit.get_field W 21 2 = 0b01 ∧ bit.get_field W 4 4 = 0b0011))) := by
  constructor
  · intro hc hg hs h2423 h2221 _
    constructor
    · intro h74
      rw [branch_exchange_eq client W hc hg hs h2423 h2221 (Or.inl h74)]
      have hl : bit.get_flag W 5 = false := by
        simp only [get_field_eq] at h74
        simp only [get_flag_eq, decide_eq_false_iff_not]
        omega
      rw [hl]
    · intro h74
      rw [branch_exchange_eq client W hc hg hs h2423 h2221 (Or.inr h74)]
      have hl : bit.get_flag W 5 = true := by
        simp only [get_field_eq] at h74
        simp only [get_flag_eq, decide_eq_true_eq]
        omega
      rw [hl]
  · intro d hd
    obtain ⟨hc, hg, hs, h2423, h2221, h74⟩ :=
      decode_arm_branch_exchange_only W (by rw [hd]; rfl)
    rw [branch_exchange_eq recorder W hc hg hs h2423 h2221 h74] at hd
    cases hd
    show bit.get_flag W 5 = true ↔ _
    constructor
    · intro hl
      refine ⟨hc, hg, hs, h2423, h2221, ?_⟩
      simp only [get_flag_eq, decide_eq_true_eq] at hl
      simp only [get_field_eq] at h74 ⊢
      omega
    · rintro ⟨-, -, -, -, -, h3⟩
      simp only [get_field_eq] at h3
      simp only [get_flag_eq, decide_eq_true_eq]
      omega

/-- Claim C11, witness: `0xE12FFF10` (`BX r0`) gives `reg = 0`, `link = false`, and
`0xE12FFF31` (`BLX r1`) gives `link = true`. -/
theorem decode_arm_branch_exchange_witness :
    (bit.get_field 0xE12FFF10 28 4 ≠ Condition.NV ∧ bit.get_field 0xE12FFF10 25 3 = 0b000 ∧
      bit.get_flag 0xE12FFF10 20 = false ∧ bit.get_field 0xE12FFF10 23 2 = 0b10 ∧
      bit.get_field 0xE12FFF10 21 2 = 0b01 ∧ bit.get_flag 0xE12FFF10 7 = false ∧
      bit.get_field 0xE12FFF10 4 4 = 0b0001) ∧
    decode_arm 0xE12FFF10 recorder = Decoded.BranchExchange {
      condition := Condition.AL, reg := 0, link := false } ∧
    decode_arm 0xE12FFF31 recorder = Decoded.BranchExchange {
      condition := Condition.AL, reg := 1, link := true } :=
  ⟨⟨by decide, by decide, by decide, by decide, by decide, by decide, by decide⟩,
    (((decode_arm_branch_exchange recorder 0xE12FFF10).1 (by decide) (by decide) (by decide)
      (by decide) (by decide) (by decide)).1 (by decide)).trans (by decide),
    by decide⟩

/-- The 8-bit offset of a halfword transfer, as the decoder computes it from
the condition-stripped word and as the nibbles `W[3..0]` and `W[11..8]`. -/
theorem halfword_offset_eq (W : Nat) :
    W % 2 ^ 28 % 2 ^ 4 ||| W % 2 ^ 28 / 2 ^ 4 / 2 ^ 4 % 2 ^ 4 * 2 ^ 4
      = W / 2 ^ 0 % 2 ^ 4 ||| (W / 2 ^ 8 % 2 ^ 4) <<< 4 := by
  have h1 : W % 2 ^ 28 % 2 ^ 4 = W / 2 ^ 0 % 2 ^ 4 := by omega
  have h2 : W % 2 ^ 28 / 2 ^ 4 / 2 ^ 4 % 2 ^ 4 = W / 2 ^ 8 % 2 ^ 4 := by omega
  rw [h1, h2, Nat.shiftLeft_eq]

/-- The 8-bit offset of a halfword transfer is at most 255. -/
theorem halfword_offset_lt (W : Nat) :
    bit.get_field W 0 4 ||| (bit.get_field W 8 4 <<< 4) < 256 := by
  simp only [get_field_eq, Nat.shiftLeft_eq]
  rw [lor_disjoint _ _ 4 (by omega)]
  omega

/-- Claim C12: a word with condition not `NV`, `W[27..25] = 000`, bits 7 and 4
set and `W[6..5]` not zero decodes to `HalfwordSignedTransfer` with
`offset_imm = W[3..0] | (W[11..8] << 4)`, a value in 0..255, `opcode = W[6..5]`,
`pre_increment = W[24]`, `add = W[23]`, `immediate = W[22]`, `writeback = W[21]`,
`load = W[20]`, `reg_base = W[19..16]`, `reg_dst = W[15..12]` and
`offset_reg = W[3..0]`, whatever the client. -/
theorem decode_arm_halfword_signed_transfer {T : Type} (client : ARMDecodeClient T) (W : Nat)
    (hc : bit.get_field W 28 4 ≠ Condition.NV)
    (hg : bit.get_field W 25 3 = 0b000)
    (h7 : bit.get_flag W 7 = true)
    (h4 : bit.get_flag W 4 = true)
    (h65 : bit.get_field W 5 2 ≠ 0) :
    decode_arm W client = client.HandleHalfwordSignedTransfer {
      condition := bit.get_field W 28 4
      pre_increment := bit.get_flag W 24
      add := bit.get_flag W 23
      immediate := bit.get_flag W 22
      writeback := bit.get_flag W 21
      load := bit.get_flag W 20
      opcode := bit.get_field W 5 2
      reg_dst := bit.get_field W 12 4
      reg_base := bit.get_field W 16 4
      offset_imm := bit.get_field W 0 4 ||| (bit.get_field W 8 4 <<< 4)
      offset_reg := bit.get_field W 0 4 } ∧
    bit.get_field W 0 4 ||| (bit.get_field W 8 4 <<< 4) < 256 := by
  refine ⟨?_, halfword_offset_lt W⟩
  simp only [get_field_eq, get_flag_eq, decide_eq_true_eq] at hc hg h7 h4 h65
  simp only [decode_arm, detail.decode_halfword_signed_transfer, get_field_eq, get_flag_eq,
    land_0x0FFFFFFF, land_0xF, land_0x90, land_0x60, land_0xF0_low, Nat.shiftRight_eq_div_pow]
  rw [if_neg hc, if_pos (by omega), if_pos (by omega), if_pos (by omega), halfword_offset_eq]
  simp (disch := decide) only [field_of_opcode]

/-- Claim C12, witness: `0xE1D123B4` (`LDRH r2, [r1, #0x34]`) has
`offset_imm = 0x34`. -/
theorem decode_arm_halfword_signed_transfer_witness :
    (bit.get_field 0xE1D123B4 28 4 ≠ Condition.NV ∧ bit.get_field 0xE1D123B4 25 3 = 0b000 ∧
      bit.get_flag 0xE1D123B4 7 = true ∧ bit.get_flag 0xE1D123B4 4 = true ∧
      bit.get_field 0xE1D123B4 5 2 ≠ 0) ∧
    decode_arm 0xE1D123B4 recorder = Decoded.HalfwordSignedTransfer {
      condition := Condition.AL, pre_increment := true, add := true, immediate := true,
      writeback := false, load := true, opcode := 1, reg_dst := 2, reg_base := 1,
      offset_imm := 0x34, offset_reg := 4 } :=
  ⟨⟨by decide, by decide, by decide, by decide, by decide⟩,
    (decode_arm_halfword_signed_transfer recorder 0xE1D123B4 (by decide) (by decide) (by decide)
      (by decide) (by decide)).1.trans (by decide)⟩

/-- Claim C13: for a word with condition not `NV`: `W[27..25] = 010` decodes to
`SingleDataTransfer` with `immediate = true`, `offset_imm = W[11..0]` (unsigned,
0..4095), `add = W[23]`, `pre_increment = W[24]`, `byte = W[22]`,
`writeback = W[21]`, `load = W[20]`, `reg_base = W[19..16]`,
`reg_dst = W[15..12]`; `W[27..25] = 011` with bit 4 set is undefined; and
`W[27..25] = 011` with bit 4 clear decodes to `SingleDataTransfer` with
`immediate = false` and `offset_reg = (W[3..0], W[6..5], W[11..7])`. -/
theorem decode_arm_single_data_transfer {T : Type} (client : ARMDecodeClient T) (W : Nat)
    (hc : bit.get_field W 28 4 ≠ Condition.NV) :
    (bit.get_field W 25 3 = 0b010 →
      decode_arm W client = client.HandleSingleDataTransfer {
        condition := bit.get_field W 28 4
        immediate := true
        pre_increment := bit.get_flag W 24
        add := bit.get_flag W 23
        byte := bit.get_flag W 22
        writeback := bit.get_flag W 21
        load := bit.get_flag W 20
        reg_dst := bit.get_field W 12 4
        reg_base := bit.get_field W 16 4
        offset_imm := bit.get_field W 0 12
        offset_reg := {
          reg := bit.get_field W 0 4
          shift := bit.get_field W 5 2
          amount := bit.get_field W 7 5 } } ∧
      bit.get_field W 0 12 ≤ 4095) ∧
    (bit.get_field W 25 3 = 0b011 → bit.get_flag W 4 = true →
      decode_arm W client = client.Undefined W) ∧
    (bit.get_field W 25 3 = 0b011 → bit.get_flag W 4 = false →
      decode_arm W client = client.HandleSingleDataTransfer {
        condition := bit.get_field W 28 4
        immediate := false
        pre_increment := bit.get_flag W 24
        add := bit.get_flag W 23
        byte := bit.get_flag W 22
        writeback := bit.get_flag W 21
        load := bit.get_flag W 20
        reg_dst := bit.get_field W 12 4
        reg_base := bit.get_field W 16 4
        offset_imm := bit.get_field W 0 12
        offset_reg := {
          reg := bit.get_field W 0 4
          shift := bit.get_field W 5 2
          amount := bit.get_field W 7 5 } }) := by
  simp only [get_field_eq, get_flag_eq, decide_eq_true_eq, decide_eq_false_iff_not] at hc ⊢
  simp only [decode_arm, detail.decode_single_data_transfer, get_field_eq, get_flag_eq,
    land_0x0FFFFFFF, land_0x10, Nat.shiftRight_eq_div_pow]
  rw [if_neg hc]
  refine ⟨fun hg => ⟨?_, by omega⟩, fun hg h4 => ?_, fun hg h4 => ?_⟩
  · rw [if_neg (by omega), if_neg (by omega), if_pos (by omega)]
    have himm : decide (W % 2 ^ 28 / 2 ^ 25 % 2 ^ 1 = 1) = false := by
      rw [decide_eq_false_iff_not]; omega
    rw [himm]
    simp (disch := decide) only [field_of_opcode, Bool.not_false]
  · rw [if_neg (by omega), if_neg (by omega), if_neg (by omega), if_pos (by omega),
      if_pos (by omega)]
  · rw [if_neg (by omega), if_neg (by omega), if_neg (by omega), if_pos (by omega),
      if_neg (by omega)]
    have himm : decide (W % 2 ^ 28 / 2 ^ 25 % 2 ^ 1 = 1) = true := by
      rw [decide_eq_true_eq]; omega
    rw [himm]
    simp (disch := decide) only [field_of_opcode, Bool.not_true]

/-- Claim C13, witness: `0xE5912FFF` (`LDR r2, [r1, #0xFFF]`) has the largest
immediate offset, 4095; `0xE7912103` takes a register offset; `0xE7912113` is
undefined. -/
theorem decode_arm_single_data_transfer_witness :
    (bit.get_field 0xE5912FFF 28 4 ≠ Condition.NV ∧ bit.get_field 0xE5912FFF 25 3 = 0b010) ∧
    decode_arm 0xE5912FFF recorder = Decoded.SingleDataTransfer {
      condition := Condition.AL, immediate := true, pre_increment := true, add := true,
      byte := false, writeback := false, load := true, reg_dst := 2, reg_base := 1,
      offset_imm := 4095, offset_reg := { reg := 15, shift := 3, amount := 31 } } ∧
    decode_arm 0xE7912103 recorder = Decoded.SingleDataTransfer {
      condition := Condition.AL, immediate := false, pre_increment := true, add := true,
      byte := false, writeback := false, load := true, reg_dst := 2, reg_base := 1,
      offset_imm := 0x103, offset_reg := { reg := 3, shift := 0, amount := 2 } } ∧
    decode_arm 0xE7912113 recorder = Decoded.Undefined 0xE7912113 :=
  ⟨⟨by decide, by decide⟩,
    ((decode_arm_single_data_transfer recorder 0xE5912FFF (by decide)).1 (by decide)).1.trans
      (by decide),
    by decide, by decide⟩

/-- Claim C14: for a word with condition not `NV` and `W[27..25] = 111`: bit 24
set decodes to `Exception` with `exception = Supervisor` and
`svc_comment = W & 0x00FFFFFF`; bit 24 clear and bit 4 set decodes to
`CoprocessorRegisterTransfer`; bits 24 and 4 both clear is undefined. A word
with `W[27..25] = 110` is always undefined. -/
theorem decode_arm_group_11x {T : Type} (client : ARMDecodeClient T) (W : Nat)
    (hc : bit.get_field W 28 4 ≠ Condition.NV) :
    (bit.get_field W 25 3 = 0b111 → bit.get_flag W 24 = true →
      decode_arm W client = client.HandleException {
        condition := bit.get_field W 28 4
        exception := Exception.Supervisor
        svc_comment := W &&& 0x00FFFFFF }) ∧
    (bit.get_field W 25 3 = 0b111 → bit.get_flag W 24 = false → bit.get_flag W 4 = true →
      decode_arm W client = client.HandleCoprocessorRegisterTransfer {
        condition := bit.get_field W 28 4
        load := bit.get_flag W 20
        reg_dst := bit.get_field W 12 4
        coprocessor_id := bit.get_field W 8 4
        opcode1 := bit.get_field W 21 3
        cn := bit.get_field W 16 4
        cm := bit.get_field W 0 4
        opcode2 := bit.get_field W 5 3 }) ∧
    (bit.get_field W 25 3 = 0b111 → bit.get_flag W 24 = false → bit.get_flag W 4 = false →
      decode_arm W client = client.Undefined W) ∧
    (bit.get_field W 25 3 = 0b110 → decode_arm W client = client.Undefined W) := by
  simp only [get_field_eq, get_flag_eq, decide_eq_true_eq, decide_eq_false_iff_not] at hc ⊢
  simp only [decode_arm, detail.decode_svc, detail.decode_coprocessor_register_transfer,
    get_field_eq, get_flag_eq, land_0x0FFFFFFF, land_0xFFFFFF, land_0x1000010,
    Nat.shiftRight_eq_div_pow]
  rw [if_neg hc]
  refine ⟨fun hg h24 => ?_, fun hg h24 h4 => ?_, fun hg h24 h4 => ?_, fun hg => ?_⟩
  · have hgrp : W % 2 ^ 28 / 2 ^ 25 = 7 := by omega
    have e : W % 2 ^ 28 % 2 ^ 24 = W % 2 ^ 24 := by omega
    simp only [hgrp, e, Nat.reduceEqDiff, if_false, if_true]
    rw [if_neg (by omega), if_neg (by omega)]
  · have hgrp : W % 2 ^ 28 / 2 ^ 25 = 7 := by omega
    simp only [hgrp, Nat.reduceEqDiff, if_false, if_true]
    rw [if_neg (by omega), if_pos (by omega)]
    simp (disch := decide) only [field_of_opcode]
  · have hgrp : W % 2 ^ 28 / 2 ^ 25 = 7 := by omega
    simp only [hgrp, Nat.reduceEqDiff, if_false, if_true]
    rw [if_pos (by omega)]
  · have hgrp : W % 2 ^ 28 / 2 ^ 25 = 6 := by omega
    simp only [hgrp, Nat.reduceEqDiff, if_false, if_true]

/-- Claim C14, witness: `0xEF123456` (`SVC 0x123456`) has `svc_comment = 0x123456`;
`0xEE011F10` is a coprocessor register transfer; `0xEE011F00` and `0xEC000000`
are undefined. -/
theorem decode_arm_group_11x_witness :
    (bit.get_field 0xEF123456 28 4 ≠ Condition.NV ∧ bit.get_field 0xEF123456 25 3 = 0b111 ∧
      bit.get_flag 0xEF123456 24 = true) ∧
    decode_arm 0xEF123456 recorder = Decoded.Exception {
      condition := Condition.AL, exception := Exception.Supervisor, svc_comment := 0x123456 } ∧
    (decode_arm 0xEE011F10 recorder).condition = some Condition.AL ∧
    decode_arm 0xEE011F00 recorder = Decoded.Undefined 0xEE011F00 ∧
    decode_arm 0xEC000000 recorder = Decoded.Undefined 0xEC000000 :=
  ⟨⟨by decide, by decide, by decide⟩,
    ((decode_arm_group_11x recorder 0xEF123456 (by decide)).1 (by decide) (by decide)).trans
      (by decide),
    by decide, by decide, by decide⟩

/-- Claim C15: the saturating add/sub sub-decoder hands its word to `Undefined`
whenever a bit of `W[23..20] & 0b1001` is set, that is bit 23 or bit 20, and
otherwise delivers `SaturatingAddSub` with `subtract = W[21]`,
`double_rhs = W[22]`, `reg_dst = W[15..12]`, `reg_lhs = W[3..0]` and
`reg_rhs = W[19..16]`, whatever the condition and the client. -/
theorem decode_saturating_add_sub_spec {T : Type} (client : ARMDecodeClient T)
    (condition : Condition) (W : Nat) :
    (bit.get_field W 20 4 &&& 0b1001 ≠ 0 ↔ (bit.get_flag W 23 = true ∨ bit.get_flag W 20 = true)) ∧
    (bit.get_field W 20 4 &&& 0b1001 ≠ 0 →
      detail.decode_saturating_add_sub condition W client = client.Undefined W) ∧
    (bit.get_field W 20 4 &&& 0b1001 = 0 →
      detail.decode_saturating_add_sub condition W client = client.HandleSaturatingAddSub {
        condition := condition
        subtract := bit.get_flag W 21
        double_rhs := bit.get_flag W 22
        reg_dst := bit.get_field W 12 4
        reg_lhs := bit.get_field W 0 4
        reg_rhs := bit.get_field W 16 4 }) := by
  refine ⟨?_, fun h => ?_, fun h => ?_⟩
  · simp only [get_field_eq, get_flag_eq, decide_eq_true_eq, land_0b1001]
    omega
  · simp only [detail.decode_saturating_add_sub]
    rw [if_pos h]
  · simp only [detail.decode_saturating_add_sub]
    rw [if_neg (not_not.mpr h)]
    have e1 : bit.get_flag (bit.get_field W 20 4) 1 = bit.get_flag W 21 := by
      simp only [get_field_eq, get_flag_eq, decide_eq_decide]
      omega
    have e2 : bit.get_flag (bit.get_field W 20 4) 2 = bit.get_flag W 22 := by
      simp only [get_field_eq, get_flag_eq, decide_eq_decide]
      omega
    rw [e1, e2]

/-- Claim C15, witness: for `0x01221053` (`QSUB r1, r3, r2` without its condition)
the mask is zero and `subtract = true`, `double_rhs = false`; for `0x01921053`
(bit 23 and bit 20 set) the verdict is `Undefined`. -/
theorem decode_saturating_add_sub_spec_witness :
    (bit.get_field 0x01221053 20 4 &&& 0b1001 = 0 ∧
      bit.get_field 0x01921053 20 4 &&& 0b1001 ≠ 0) ∧
    detail.decode_saturating_add_sub Condition.AL 0x01221053 recorder
      = Decoded.SaturatingAddSub {
        condition := Condition.AL, subtract := true, double_rhs := false,
        reg_dst := 1, reg_lhs := 3, reg_rhs := 2 } ∧
    detail.decode_saturating_add_sub Condition.AL 0x01921053 recorder
      = Decoded.Undefined 0x01921053 :=
  ⟨⟨by decide, by decide⟩,
    ((decode_saturating_add_sub_spec recorder Condition.AL 0x01221053).2.2 (by decide)).trans
      (by decide),
    (decode_saturating_add_sub_spec recorder Condition.AL 0x01921053).2.1 (by decide)⟩

/-- Claim C16: the signed halfword multiply sub-decoder selects on the
sub-opcode `W[24..21]`: `0b1000` or `0b1011` delivers `SignedHalfwordMultiply`
with `accumulate` true exactly for `0b1000`, `x = W[5]`, `y = W[6]`; `0b1001`
delivers `SignedWordHalfwordMultiply` with `accumulate = not W[5]`, `y = W[6]`;
`0b1010` delivers `SignedHalfwordMultiplyAccumulateLong` with
`reg_dst_hi = W[19..16]`, `reg_dst_lo = W[15..12]`; every other sub-opcode is
handed to `Undefined`. -/
theorem decode_signed_halfword_multiply_spec {T : Type} (client : ARMDecodeClient T)
    (condition : Condition) (W : Nat) :
    (bit.get_field W 21 4 = 0b1000 ∨ bit.get_field W 21 4 = 0b1011 →
      detail.decode_signed_halfword_multiply condition W client
        = client.HandleSignedHalfwordMultiply {
          condition := condition
          accumulate := decide (bit.get_field W 21 4 = 0b1000)
          x := bit.get_flag W 5
          y := bit.get_flag W 6
          reg_dst := bit.get_field W 16 4
          reg_lhs := bit.get_field W 0 4
          reg_rhs := bit.get_field W 8 4
          reg_op3 := bit.get_field W 12 4 }) ∧
    (bit.get_field W 21 4 = 0b1001 →
      detail.decode_signed_halfword_multiply condition W client
        = client.HandleSignedWordHalfwordMultiply {
          condition := condition
          accumulate := !bit.get_flag W 5
          y := bit.get_flag W 6
          reg_dst := bit.get_field W 16 4
          reg_lhs := bit.get_field W 0 4
          reg_rhs := bit.get_field W 8 4
          reg_op3 := bit.get_field W 12 4 }) ∧
    (bit.get_field W 21 4 = 0b1010 →
      detail.decode_signed_halfword_multiply condition W client
        = client.HandleSignedHalfwordMultiplyAccumulateLong {
          condition := condition
          x := bit.get_flag W 5
          y := bit.get_flag W 6
          reg_dst_hi := bit.get_field W 16 4
          reg_dst_lo := bit.get_field W 12 4
          reg_lhs := bit.get_field W 0 4
          reg_rhs := bit.get_field W 8 4 }) ∧
    (¬ (8 ≤ bit.get_field W 21 4 ∧ bit.get_field W 21 4 ≤ 11) →
      detail.decode_signed_halfword_multiply condition W client = client.Undefined W) := by
  refine ⟨fun h => ?_, fun h => ?_, fun h => ?_, fun h => ?_⟩
  · simp only [detail.decode_signed_halfword_multiply]
    rw [if_pos h]
  · simp only [detail.decode_signed_halfword_multiply]
    rw [if_neg (by omega), if_pos h]
  · simp only [detail.decode_signed_halfword_multiply]
    rw [if_neg (by omega), if_neg (by omega), if_pos h]
  · simp only [detail.decode_signed_halfword_multiply]
    rw [if_neg (by omega), if_neg (by omega), if_neg (by omega)]

/-- Claim C16, witness: `0x01012384` (sub-opcode 8, `SMLABB`) accumulates,
`0x016103A2` (sub-opcode 11, `SMULTB`) does not, and `0x00012384` (sub-opcode 0)
is handed to `Undefined`. -/
theorem decode_signed_halfword_multiply_spec_witness :
    (bit.get_field 0x01012384 21 4 = 0b1000 ∧
      ¬ (8 ≤ bit.get_field 0x00012384 21 4 ∧ bit.get_field 0x00012384 21 4 ≤ 11)) ∧
    detail.decode_signed_halfword_multiply Condition.AL 0x01012384 recorder
      = Decoded.SignedHalfwordMultiply {
        condition := Condition.AL, accumulate := true, x := false, y := false,
        reg_dst := 1, reg_lhs := 4, reg_rhs := 3, reg_op3 := 2 } ∧
    detail.decode_signed_halfword_multiply Condition.AL 0x016103A2 recorder
      = Decoded.SignedHalfwordMultiply {
        condition := Condition.AL, accumulate := false, x := true, y := false,
        reg_dst := 1, reg_lhs := 2, reg_rhs := 3, reg_op3 := 0 } ∧
    detail.decode_signed_halfword_multiply Condition.AL 0x00012384 recorder
      = Decoded.Undefined 0x00012384 :=
  ⟨⟨by decide, by decide⟩,
    ((decode_signed_halfword_multiply_spec recorder Condition.AL 0x01012384).1
      (Or.inl (by decide))).trans (by decide),
    by decide,
    (decode_signed_halfword_multiply_spec recorder Condition.AL 0x00012384).2.2.2 (by decide)⟩

/-! ## The CPU: interrupts, registers, dispatch -/

/-- Claim C17: in a state where the IRQ line is asserted and the CPSR IRQ
mask is clear (and LR and PC of the IRQ mode are different locations), the
interrupt step of `Run` is `SignalIRQ`, after which `SPSR_irq` is the CPSR
before the call; the CPSR has `mode = IRQ`, `mask_irq = 1`, `thumb = 0` and its
other fields unchanged; the LR of the IRQ mode is the old PC minus 4 (in
`u32` arithmetic) if the old CPSR was in ARM state and the old PC if it was
in Thumb state; PC is `exception_base + 0x18 + 8` modulo `2 ^ 32`; and the
IRQ-wait flag is clear. The old PC is the one PC that the IRQ mode sees,
which is the PC of the interrupted mode when PC is not banked. -/
theorem SignalIRQ_handshake (jit : JIT)
    (hirq : jit.irq_line = true)
    (hmask : jit.GetCPSR.mask_irq = false)
    (hloc : jit.state.gpr_location Mode.IRQ GPR.LR ≠ jit.state.gpr_location Mode.IRQ GPR.PC) :
    (if jit.IRQLine then jit.SignalIRQ else jit) = jit.SignalIRQ ∧
    jit.SignalIRQ.GetSPSR Mode.IRQ = jit.GetCPSR ∧
    jit.SignalIRQ.GetCPSR
      = { jit.GetCPSR with mode := Mode.IRQ, mask_irq := true, thumb := false } ∧
    jit.SignalIRQ.GetGPR GPR.LR Mode.IRQ
      = (if jit.GetCPSR.thumb then jit.GetGPR GPR.PC Mode.IRQ
          else (jit.GetGPR GPR.PC Mode.IRQ + 2 ^ 32 - 4) % 2 ^ 32) ∧
    (jit.GetCPSR.thumb = false → 4 ≤ jit.GetGPR GPR.PC Mode.IRQ →
      jit.GetGPR GPR.PC Mode.IRQ < 2 ^ 32 →
      jit.SignalIRQ.GetGPR GPR.LR Mode.IRQ = jit.GetGPR GPR.PC Mode.IRQ - 4) ∧
    (jit.state.gpr_location jit.GetCPSR.mode GPR.PC = jit.state.gpr_location Mode.IRQ GPR.PC →
      jit.GetGPR GPR.PC Mode.IRQ = jit.GetGPR_current GPR.PC) ∧
    jit.SignalIRQ.GetGPR_current GPR.PC = (jit.exception_base + 0x18 + 8) % 2 ^ 32 ∧
    jit.SignalIRQ.GetGPR GPR.PC Mode.IRQ = (jit.exception_base + 0x18 + 8) % 2 ^ 32 ∧
    jit.SignalIRQ.wait_for_irq = false := by
  obtain ⟨irq, wait, cyc, eb, mem, ⟨gl, sl, gs, ss, ⟨mode, thumb, mf, mi, res, v, c, z, n⟩⟩,
    tr, bc, log⟩ := jit
  simp only [JIT.GetCPSR, State.GetCPSR] at hmask hirq hloc
  subst hmask hirq
  have hne : gl Mode.IRQ GPR.PC ≠ gl Mode.IRQ GPR.LR := fun h => hloc h.symm
  cases thumb
  · simp [JIT.SignalIRQ, JIT.IRQLine, JIT.GetSPSR, JIT.GetCPSR, JIT.GetGPR,
      JIT.GetGPR_current, State.GetSPSR, State.SetSPSR, State.GetCPSR, State.SetCPSR,
      State.SetGPR, State.GetGPR, Function.update_noteq hloc, Function.update_noteq hne]
    exact ⟨fun h4 hlt => by omega, fun h => by rw [h]⟩
  · simp [JIT.SignalIRQ, JIT.IRQLine, JIT.GetSPSR, JIT.GetCPSR, JIT.GetGPR,
      JIT.GetGPR_current, State.GetSPSR, State.SetSPSR, State.GetCPSR, State.SetCPSR,
      State.SetGPR, State.GetGPR, Function.update_noteq hloc, Function.update_noteq hne]
    intro h
    rw [h]

/-- Claim C17, witness: for the CPU `JIT.sample` (ARM state, mode `0x1F`, PC
`0x1008`, `exception_base = 0xFFFF0000`), after the interrupt the LR of the
IRQ mode is `0x1004`, PC is `0xFFFF0020`, the CPSR is in IRQ mode with IRQs
masked, `SPSR_irq` is the old CPSR and the IRQ-wait flag is clear. -/
theorem SignalIRQ_handshake_witness :
    (JIT.sample.irq_line = true ∧ JIT.sample.GetCPSR.mask_irq = false ∧
      JIT.sample.state.gpr_location Mode.IRQ GPR.LR
        ≠ JIT.sample.state.gpr_location Mode.IRQ GPR.PC) ∧
    JIT.sample.SignalIRQ.GetGPR GPR.LR Mode.IRQ = 0x1004 ∧
    JIT.sample.SignalIRQ.GetGPR_current GPR.PC = 0xFFFF0020 ∧
    JIT.sample.SignalIRQ.GetCPSR
      = { mode := Mode.IRQ, thumb := false, mask_fiq := true, mask_irq := true,
          reserved := 0, v := false, c := true, z := false, n := false } ∧
    JIT.sample.SignalIRQ.GetSPSR Mode.IRQ
      = { mode := 0x1F, thumb := false, mask_fiq := true, mask_irq := false,
          reserved := 0, v := false, c := true, z := false, n := false } ∧
    JIT.sample.SignalIRQ.wait_for_irq = false := by
  have h := SignalIRQ_handshake JIT.sample rfl rfl (by decide)
  refine ⟨⟨rfl, rfl, by decide⟩, ?_, ?_, ?_, ?_, ?_⟩
  · rw [h.2.2.2.1]; decide
  · rw [h.2.2.2.2.2.2.1]; decide
  · rw [h.2.2.1]; rfl
  · rw [h.2.1]; rfl
  · exact h.2.2.2.2.2.2.2.2

/-- Claim C18: after `SetGPR(PC, m, v)` the read `GetGPR(PC, m)` returns
`v + 2 * instr_width` modulo `2 ^ 32`, where `instr_width` is 4 when the CPSR
Thumb bit is clear and 2 when it is set; the same holds for the pair
`SetGPR(PC, v)`, `GetGPR(PC)` in the current CPSR mode. -/
theorem SetGPR_PC_pipeline (jit : JIT) (m : Mode) (v : Nat) :
    (jit.SetGPR GPR.PC m v).GetGPR GPR.PC m
      = (v + 2 * (if jit.GetCPSR.thumb then 2 else 4)) % 2 ^ 32 ∧
    (jit.SetGPR_current GPR.PC v).GetGPR_current GPR.PC
      = (v + 2 * (if jit.GetCPSR.thumb then 2 else 4)) % 2 ^ 32 := by
  obtain ⟨irq, wait, cyc, eb, mem, ⟨gl, sl, gs, ss, ⟨mode, thumb, mf, mi, res, v', c, z, n⟩⟩,
    tr, bc, log⟩ := jit
  cases thumb <;>
    simp [JIT.SetGPR, JIT.SetGPR_current, JIT.GetGPR, JIT.GetGPR_current, JIT.GetCPSR,
      State.GetCPSR, State.SetGPR, State.GetGPR]

/-- Claim C18, instance: on the CPU `JIT.sample` (ARM state) writing `0x1000` to
PC reads back `0x1008`, and writing `0xFFFFFFFC` reads back `4`; with the
Thumb bit set, writing `0x1000` reads back `0x1004`. -/
theorem SetGPR_PC_pipeline_witness :
    (JIT.sample.SetGPR GPR.PC Mode.IRQ 0x1000).GetGPR GPR.PC Mode.IRQ = 0x1008 ∧
    (JIT.sample.SetGPR_current GPR.PC 0xFFFFFFFC).GetGPR_current GPR.PC = 4 ∧
    ((JIT.sample.SetCPSR { JIT.sample.GetCPSR with thumb := true }).SetGPR_current
      GPR.PC 0x1000).GetGPR_current GPR.PC = 0x1004 := by
  refine ⟨?_, ?_, ?_⟩
  · rw [(SetGPR_PC_pipeline JIT.sample Mode.IRQ 0x1000).1]; decide
  · rw [(SetGPR_PC_pipeline JIT.sample Mode.IRQ 0xFFFFFFFC).2]; decide
  · rw [(SetGPR_PC_pipeline _ Mode.IRQ 0x1000).2]; decide

/-- Claim C19: if the CPU is waiting for an IRQ and the IRQ line is not
asserted, `Run(c)` returns 0 for every requested cycle count `c` (zero
included) and leaves the CPU as it was: the cycle budget, the guest state
and the block cache are unchanged and the record of calls has no new entry,
so neither the cache lookup nor the compiler nor the backend was invoked.
This holds whatever the collaborators are and without any loop iteration. -/
theorem Run_waiting_for_irq (env : Collaborators) (fuel : Nat) (cycles : Int) (jit : JIT)
    (hwait : jit.IsWaitingForIRQ = true) (hline : jit.IRQLine = false) :
    JIT.Run env fuel cycles jit = some (0, jit) := by
  unfold JIT.Run
  rw [if_pos ⟨hwait, hline⟩]

/-- Claim C19, witness: the CPU `JIT.sample` with its IRQ line released is
waiting for an IRQ; `Run(0)` and `Run(1000)` return 0 and leave it as it was,
with no fuel at all. -/
theorem Run_waiting_for_irq_witness :
    (JIT.IsWaitingForIRQ { JIT.sample with irq_line := false } = true ∧
      JIT.IRQLine { JIT.sample with irq_line := false } = false) ∧
    JIT.Run Collaborators.sample 0 0 { JIT.sample with irq_line := false }
      = some (0, { JIT.sample with irq_line := false }) ∧
    JIT.Run Collaborators.sample 0 1000 { JIT.sample with irq_line := false }
      = some (0, { JIT.sample with irq_line := false }) :=
  ⟨⟨rfl, rfl⟩,
    Run_waiting_for_irq Collaborators.sample 0 0 { JIT.sample with irq_line := false } rfl rfl,
    Run_waiting_for_irq Collaborators.sample 0 1000 { JIT.sample with irq_line := false }
      rfl rfl⟩

/-- Claim C20: for a basic block whose key address has bit 0 set,
`Translator::Translate` returns `false`, and the translator (its memoized
mode and its emitter pointer) and the block are as before; no call was made
to memory or to the decoder. This holds whatever the memory and the
translator's `Handle` overloads are. -/
theorem Translate_thumb_refused (handlers : ARMDecodeClient Translator.Action)
    (translator : Translator) (block : BasicBlock) (memory : Memory)
    (hthumb : block.key.address % 2 = 1) :
    translator.Translate handlers block memory = (false, translator, block, []) := by
  have h : block.key.address &&& 1 ≠ 0 := by
    rw [Nat.and_one_is_mod]
    omega
  unfold Translator.Translate
  simp only [h, ne_eq, not_false_eq_true, if_true]

/-- Claim C20, witness: a block at the Thumb address `0x1001` is refused. -/
theorem Translate_thumb_refused_witness :
    (BasicBlock.create { address := 0x1001, mode := 0x1F }).key.address % 2 = 1 ∧
    Translator.Translate Collaborators.sample.handlers { mode := 0, emitter := none }
        (BasicBlock.create { address := 0x1001, mode := 0x1F }) { FastRead := fun _ => 0 }
      = (false, { mode := 0, emitter := none },
          BasicBlock.create { address := 0x1001, mode := 0x1F }, []) :=
  ⟨by decide,
    Translate_thumb_refused Collaborators.sample.handlers { mode := 0, emitter := none }
      (BasicBlock.create { address := 0x1001, mode := 0x1F }) { FastRead := fun _ => 0 }
      (by decide)⟩

/-! ## Claims C21 to C25: the decoder returns what its client returns -/

theorem dispatch_saturating_add_sub {T : Type} (client : ARMDecodeClient T) (c op : Nat) :
    (detail.decode_saturating_add_sub c op recorder).dispatch client
      = detail.decode_saturating_add_sub c op client := by
  simp only [detail.decode_saturating_add_sub]
  split_ifs <;> rfl

theorem dispatch_signed_halfword_multiply {T : Type} (client : ARMDecodeClient T) (c op : Nat) :
    (detail.decode_signed_halfword_multiply c op recorder).dispatch client
      = detail.decode_signed_halfword_multiply c op client := by
  simp only [detail.decode_signed_halfword_multiply]
  split_ifs <;> rfl

/-- A relation between the branches of two conditionals on the same test
holds between the conditionals. -/
theorem ite_prop2 {α β : Type} {P : α → β → Prop} {c : Prop} [Decidable c] {a a' : α}
    {b b' : β} (h1 : c → P a b) (h2 : ¬ c → P a' b') :
    P (if c then a else a') (if c then b else b') := by
  split_ifs with h
  · exact h1 h
  · exact h2 h

/-- Whatever the client, `decode_arm` returns what the client returns for the
descriptor (or the undefined word) that the recording client records. -/
theorem decode_arm_dispatch {T : Type} (client : ARMDecodeClient T) (W : Nat) :
    decode_arm W client = (decode_arm W recorder).dispatch client := by
  obtain ⟨P, hP⟩ : ∃ P : T → Decoded → Prop, P = fun t r => t = r.dispatch client := ⟨_, rfl⟩
  suffices h : P (decode_arm W client) (decode_arm W recorder) by
    rw [hP] at h
    exact h
  simp only [decode_arm]
  repeat' (with_reducible refine ite_prop2 (fun h => ?_) (fun h => ?_))
  all_goals subst hP
  all_goals first
    | rfl
    | exact (dispatch_saturating_add_sub client _ _).symm
    | exact (dispatch_signed_halfword_multiply client _ _).symm

/-- A word that the decoder classifies as undefined is handed to the client's
`Undefined`, whatever the client. -/
theorem decode_arm_undefined_client {T : Type} (client : ARMDecodeClient T) (W : Nat)
    (h : (decode_arm W recorder).isUndefined = true) :
    decode_arm W client = client.Undefined W := by
  rw [decode_arm_dispatch client W]
  rcases decode_arm_outcome W with h0 | ⟨hc, -, -⟩
  · rw [h0]
    rfl
  · cases hr : decode_arm W recorder <;> rw [hr] at h hc <;>
      first
        | (cases h; done)
        | cases hc

/-- What `Translate` returns for a block at an even address whose code word
the decoder classifies as undefined. -/
theorem Translate_of_undefined_word (handlers : ARMDecodeClient Translator.Action)
    (translator : Translator) (block : BasicBlock) (memory : Memory)
    (heven : block.key.address % 2 = 0)
    (hund : (decode_arm (memory.FastRead block.key.address) recorder).isUndefined = true) :
    translator.Translate handlers block memory
      = (false, { translator with mode := block.key.mode, emitter := some block.key }, block,
          [Event.MemoryFastRead block.key.address,
            Event.Decode (memory.FastRead block.key.address)]) := by
  have h : ¬ (block.key.address &&& 1 ≠ 0) := by
    rw [Nat.and_one_is_mod]
    omega
  unfold Translator.Translate
  simp only [h, if_false]
  rw [decode_arm_undefined_client _ _ hund]
  rfl

/-- What `Translate` returns for a block at an odd address. -/
theorem Translate_of_thumb_address (handlers : ARMDecodeClient Translator.Action)
    (translator : Translator) (block : BasicBlock) (memory : Memory)
    (hthumb : block.key.address % 2 = 1) :
    translator.Translate handlers block memory = (false, translator, block, []) := by
  have h : block.key.address &&& 1 ≠ 0 := by
    rw [Nat.and_one_is_mod]
    omega
  unfold Translator.Translate
  rw [if_pos h]

/-- Claim C21: for a basic block with an even key address and a memory whose
code word at that address is one that `decode_arm` classifies as undefined,
`Translator::Translate` returns `false` and the block is as before: no IR
was emitted. (The translator has memoized the block's mode and emitter, and
memory and decoder were each called once.) This holds whatever the
translator's `Handle` overloads are. -/
theorem Translate_undefined_refused (handlers : ARMDecodeClient Translator.Action)
    (translator : Translator) (block : BasicBlock) (memory : Memory)
    (heven : block.key.address % 2 = 0)
    (hund : (decode_arm (memory.FastRead block.key.address) recorder).isUndefined = true) :
    translator.Translate handlers block memory
      = (false, { translator with mode := block.key.mode, emitter := some block.key }, block,
          [Event.MemoryFastRead block.key.address,
            Event.Decode (memory.FastRead block.key.address)]) ∧
    (translator.Translate handlers block memory).2.2.1.emitter = block.emitter := by
  have e := Translate_of_undefined_word handlers translator block memory heven hund
  exact ⟨e, by rw [e]⟩

/-- Claim C21, witness: a block at `0x1000` over a memory that reads
`0xE7F000F0` (an undefined word) is refused, and its emitter stays empty. -/
theorem Translate_undefined_refused_witness :
    ((BasicBlock.create { address := 0x1000, mode := 0x1F }).key.address % 2 = 0 ∧
      (decode_arm (Memory.FastRead { FastRead := fun _ => 0xE7F000F0 }
        (BasicBlock.create { address := 0x1000, mode := 0x1F }).key.address)
          recorder).isUndefined = true) ∧
    Translator.Translate Collaborators.sample.handlers { mode := 0, emitter := none }
        (BasicBlock.create { address := 0x1000, mode := 0x1F })
        { FastRead := fun _ => 0xE7F000F0 }
      = (false, { mode := 0x1F, emitter := some { address := 0x1000, mode := 0x1F } },
          BasicBlock.create { address := 0x1000, mode := 0x1F },
          [Event.MemoryFastRead 0x1000, Event.Decode 0xE7F000F0]) :=
  ⟨⟨by decide, by decide⟩,
    (Translate_undefined_refused Collaborators.sample.handlers { mode := 0, emitter := none }
      (BasicBlock.create { address := 0x1000, mode := 0x1F })
      { FastRead := fun _ => 0xE7F000F0 } (by decide) (by decide)).1⟩

/-! ## Compilation of a block -/

/-- Whatever the translator returns, `Compile` ends by handing the block to the
backend's code generator and inserting it into the block cache, and returns
the block it inserted. -/
theorem Compile_always_compiles (env : Collaborators) (key : BasicBlock.Key) (depth : Int)
    (jit : JIT) :
    (∃ log, (JIT.Compile env key depth jit).2.log
      = log ++ [Event.BackendCompile key, Event.CacheSet key]) ∧
    (JIT.Compile env key depth jit).2.block_cache.Get key
      = some (JIT.Compile env key depth jit).1 := by
  rw [JIT.Compile]
  refine ⟨⟨_, rfl⟩, ?_⟩
  simp [BasicBlockCache.Get, BasicBlockCache.Set]

/-- When the translator hands back the block as it was created (as it does
when it refuses it), `Compile` at any depth makes no nested call, hands the
block to the backend's code generator and inserts it into the block cache. -/
theorem Compile_of_untouched_block (env : Collaborators) (key : BasicBlock.Key) (depth : Int)
    (jit : JIT)
    (hblock : (jit.translator.Translate env.handlers (BasicBlock.create key) jit.memory).2.2.1
      = BasicBlock.create key) :
    JIT.Compile env key depth jit
      = (env.BackendCompile (BasicBlock.create key),
          { jit with
            translator :=
              (jit.translator.Translate env.handlers (BasicBlock.create key) jit.memory).2.1
            block_cache := jit.block_cache.Set key (env.BackendCompile (BasicBlock.create key))
            log := jit.log ++ [Event.Compile key depth, Event.Translate key]
              ++ (jit.translator.Translate env.handlers (BasicBlock.create key) jit.memory).2.2.2
              ++ [Event.BackendCompile key, Event.CacheSet key] }) := by
  rw [JIT.Compile]
  simp only [hblock]
  simp [BasicBlock.create, BasicBlock.Key.value]

/-- One iteration of the loop of `Run` on a CPU with budget left, the IRQ line
released and no block cached for the current key: the block is compiled,
then executed by `backend.Call`. -/
theorem Run_loop_miss (env : Collaborators) (start_cycles : Int) (fuel : Nat) (jit : JIT)
    (hpos : 0 < jit.cycles_to_run) (hline : jit.irq_line = false)
    (hmiss : jit.block_cache.Get (env.KeyOfState jit.state) = none) :
    JIT.Run.loop env start_cycles (fuel + 1) jit
      = (let compiled := JIT.Compile env (env.KeyOfState jit.state) 0
            { jit with log := jit.log ++ [Event.CacheGet (env.KeyOfState jit.state)] }
        let called := env.BackendCall compiled.1 compiled.2.cycles_to_run
          { irq_line := compiled.2.irq_line, wait_for_irq := compiled.2.wait_for_irq,
            state := compiled.2.state, block_cache := compiled.2.block_cache }
        let after : JIT := { compiled.2 with
          irq_line := called.2.irq_line
          wait_for_irq := called.2.wait_for_irq
          state := called.2.state
          block_cache := called.2.block_cache
          cycles_to_run := called.1
          log := compiled.2.log
            ++ [Event.BackendCall compiled.1.key compiled.2.cycles_to_run] }
        if after.wait_for_irq then
          some (int_wrap (start_cycles - after.cycles_to_run), { after with cycles_to_run := 0 })
        else
          JIT.Run.loop env start_cycles fuel after) := by
  rw [JIT.Run.loop]
  simp only [gt_iff_lt, hpos, if_true, JIT.IRQLine, hline, Bool.false_eq_true, if_false,
    hmiss, JIT.IsWaitingForIRQ]


/-- A refused block is executed: on `JIT.sample_undefined`, whose PC key is
`0x1008` in mode `0x1F` and whose memory reads the undefined word
`0xE7F000F0`, `Run(100)` compiles the block, hands it to the backend's code
generator, inserts it into the cache and calls `backend.Call` on it. -/
theorem Run_sample_undefined :
    (JIT.Run Collaborators.sample 1 100 JIT.sample_undefined).map (fun r => (r.1, r.2.log))
      = some (100,
          [Event.CacheGet { address := 0x1008, mode := 0x1F },
            Event.Compile { address := 0x1008, mode := 0x1F } 0,
            Event.Translate { address := 0x1008, mode := 0x1F },
            Event.MemoryFastRead 0x1008, Event.Decode 0xE7F000F0,
            Event.BackendCompile { address := 0x1008, mode := 0x1F },
            Event.CacheSet { address := 0x1008, mode := 0x1F },
            Event.BackendCall { address := 0x1008, mode := 0x1F } 100]) := by
  unfold JIT.Run
  rw [if_neg (by decide)]
  simp only []
  rw [Run_loop_miss Collaborators.sample _ 0
    { JIT.sample_undefined with
      cycles_to_run := int_wrap (JIT.sample_undefined.cycles_to_run + 100) }
    (by decide) rfl rfl]
  simp only []
  rw [Compile_of_untouched_block Collaborators.sample _ 0 _ (by decide)]
  rfl

/-- Claim C22 (the code does otherwise): when the translator refuses the
block for a key, because the address is a Thumb address or the code word is
undefined, `Translate` returns `false`, and `Compile` nevertheless hands the
block, as created, to the backend's code generator, inserts it into the
block cache under the key and returns it. What `Compile` does is the same
as for a block whose translation succeeded and emitted nothing. -/
theorem Compile_ignores_refusal (env : Collaborators) (key : BasicBlock.Key) (depth : Int)
    (jit : JIT)
    (href : key.address % 2 = 1 ∨
      (key.address % 2 = 0 ∧
        (decode_arm (jit.memory.FastRead key.address) recorder).isUndefined = true)) :
    (jit.translator.Translate env.handlers (BasicBlock.create key) jit.memory).1 = false ∧
    (JIT.Compile env key depth jit).1 = env.BackendCompile (BasicBlock.create key) ∧
    (∃ log, (JIT.Compile env key depth jit).2.log
      = log ++ [Event.BackendCompile key, Event.CacheSet key]) ∧
    (JIT.Compile env key depth jit).2.block_cache.Get key
      = some (env.BackendCompile (BasicBlock.create key)) := by
  have hflag : (jit.translator.Translate env.handlers (BasicBlock.create key) jit.memory).1
        = false ∧
      (jit.translator.Translate env.handlers (BasicBlock.create key) jit.memory).2.2.1
        = BasicBlock.create key := by
    have hkey : (BasicBlock.create key).key = key := rfl
    rw [← hkey] at href
    rcases href with hthumb | ⟨heven, hund⟩
    · rw [Translate_of_thumb_address env.handlers jit.translator (BasicBlock.create key)
        jit.memory hthumb]
      exact ⟨rfl, rfl⟩
    · rw [Translate_of_undefined_word env.handlers jit.translator (BasicBlock.create key)
        jit.memory heven hund]
      exact ⟨rfl, rfl⟩
  have hc := Compile_of_untouched_block env key depth jit hflag.2
  have ha := Compile_always_compiles env key depth jit
  refine ⟨hflag.1, by rw [hc], ha.1, ?_⟩
  rw [ha.2, hc]

/-- Claim C22, failing input: on the CPU `JIT.sample_undefined` the block at
the PC key `0x1008` holds the undefined word `0xE7F000F0`; `Translate` returns
`false`, and `Compile` hands the block to the backend's code generator and
inserts it into the cache; `Run(100)` then calls `backend.Call` on it. The
same happens for the Thumb key `0x1001`. -/
theorem Compile_ignores_refusal_witness :
    (((0x1008 : Nat) % 2 = 0 ∧
      (decode_arm (JIT.sample_undefined.memory.FastRead 0x1008) recorder).isUndefined = true) ∧
      (0x1001 : Nat) % 2 = 1) ∧
    (JIT.sample_undefined.translator.Translate Collaborators.sample.handlers
      (BasicBlock.create { address := 0x1008, mode := 0x1F }) JIT.sample_undefined.memory).1
      = false ∧
    (JIT.Compile Collaborators.sample { address := 0x1008, mode := 0x1F } 0
      JIT.sample_undefined).2.block_cache.Get { address := 0x1008, mode := 0x1F }
      = some (Collaborators.sample.BackendCompile
          (BasicBlock.create { address := 0x1008, mode := 0x1F })) ∧
    (JIT.Compile Collaborators.sample { address := 0x1001, mode := 0x1F } 0
      JIT.sample_undefined).2.block_cache.Get { address := 0x1001, mode := 0x1F }
      = some (Collaborators.sample.BackendCompile
          (BasicBlock.create { address := 0x1001, mode := 0x1F })) ∧
    (JIT.Run Collaborators.sample 1 100 JIT.sample_undefined).map (fun r => (r.1, r.2.log))
      = some (100,
          [Event.CacheGet { address := 0x1008, mode := 0x1F },
            Event.Compile { address := 0x1008, mode := 0x1F } 0,
            Event.Translate { address := 0x1008, mode := 0x1F },
            Event.MemoryFastRead 0x1008, Event.Decode 0xE7F000F0,
            Event.BackendCompile { address := 0x1008, mode := 0x1F },
            Event.CacheSet { address := 0x1008, mode := 0x1F },
            Event.BackendCall { address := 0x1008, mode := 0x1F } 100]) :=
  ⟨⟨⟨by decide, by decide⟩, by decide⟩,
    (Compile_ignores_refusal Collaborators.sample { address := 0x1008, mode := 0x1F } 0
      JIT.sample_undefined (Or.inr ⟨by decide, by decide⟩)).1,
    (Compile_ignores_refusal Collaborators.sample { address := 0x1008, mode := 0x1F } 0
      JIT.sample_undefined (Or.inr ⟨by decide, by decide⟩)).2.2.2,
    (Compile_ignores_refusal Collaborators.sample { address := 0x1001, mode := 0x1F } 0
      JIT.sample_undefined (Or.inl (by decide))).2.2.2,
    Run_sample_undefined⟩

/-! ## Speculative compilation of branch targets -/

/-- The calls `Translate` records are reads of memory and calls of the
decoder: none is an entry into `Compile` or a call of the backend. -/
theorem Translate_events (handlers : ARMDecodeClient Translator.Action)
    (translator : Translator) (block : BasicBlock) (memory : Memory) :
    (∀ k d, Event.Compile k d ∉ (translator.Translate handlers block memory).2.2.2) ∧
    (translator.Translate handlers block memory).2.2.2.countP Event.isCompile = 0 ∧
    (translator.Translate handlers block memory).2.2.2.countP Event.isBackendCompile = 0 := by
  unfold Translator.Translate
  by_cases h : block.key.address &&& 1 ≠ 0
  · rw [if_pos h]
    simp
  · rw [if_neg h]
    simp [Event.isCompile, Event.isBackendCompile]

/-- The entries `Compile` adds to the record of calls: the entries into
`Compile` they hold are at depths from `depth` up to 9 (or `depth` alone when
it is above 9), there are at most `9 - depth + 1` of them, and there is one
call of the backend's code generator for each. -/
theorem Compile_log_shape (env : Collaborators) (n : Nat) :
    ∀ (key : BasicBlock.Key) (depth : Int) (jit : JIT), (9 - depth).toNat ≤ n →
      ∃ new, (JIT.Compile env key depth jit).2.log = jit.log ++ new ∧
        (∀ k d, Event.Compile k d ∈ new → depth ≤ d ∧ d ≤ max depth 9) ∧
        new.countP Event.isCompile ≤ (9 - depth).toNat + 1 ∧
        new.countP Event.isBackendCompile = new.countP Event.isCompile := by
  induction n with
  | zero =>
    intro key depth jit hn
    have hd : ¬ depth ≤ 8 := by omega
    obtain ⟨e1, e2, e3⟩ :=
      Translate_events env.handlers jit.translator (BasicBlock.create key) jit.memory
    rw [JIT.Compile]
    simp only []
    rw [if_neg hd]
    generalize jit.translator.Translate env.handlers (BasicBlock.create key) jit.memory = T
      at e1 e2 e3
    refine ⟨[Event.Compile key depth, Event.Translate key] ++ T.2.2.2
      ++ [Event.BackendCompile key, Event.CacheSet key], by simp, ?_, ?_, ?_⟩
    · intro k d hmem
      simp [e1] at hmem
      omega
    · simp [List.countP_append, List.countP_cons, Event.isCompile, e2]
    · simp [List.countP_append, List.countP_cons, Event.isCompile, Event.isBackendCompile, e2, e3]
  | succ n ih =>
    intro key depth jit hn
    obtain ⟨e1, e2, e3⟩ :=
      Translate_events env.handlers jit.translator (BasicBlock.create key) jit.memory
    rw [JIT.Compile]
    simp only []
    generalize jit.translator.Translate env.handlers (BasicBlock.create key) jit.memory = T
      at e1 e2 e3
    by_cases hd : depth ≤ 8
    · rw [if_pos hd]
      by_cases hv : T.2.2.1.branch_target.key.value ≠ 0
      · rw [if_pos hv]
        by_cases hf : (jit.block_cache.Get T.2.2.1.branch_target.key).isNone = true
        · rw [if_pos hf]
          obtain ⟨new, h1, h2, h3, h4⟩ := ih T.2.2.1.branch_target.key (depth + 1)
            { jit with
              translator := T.2.1
              log := jit.log ++ [Event.Compile key depth] ++ [Event.Translate key] ++ T.2.2.2
                ++ [Event.CacheGet T.2.2.1.branch_target.key] } (by omega)
          rw [h1]
          refine ⟨[Event.Compile key depth, Event.Translate key] ++ T.2.2.2
            ++ [Event.CacheGet T.2.2.1.branch_target.key] ++ new
            ++ [Event.BackendCompile key, Event.CacheSet key], by simp, ?_, ?_, ?_⟩
          · intro k d hmem
            simp [e1] at hmem
            rcases hmem with ⟨-, rfl⟩ | hmem
            · omega
            · have := h2 k d hmem
              omega
          · simp [List.countP_append, List.countP_cons, Event.isCompile, e2]
            omega
          · simp [List.countP_append, List.countP_cons, Event.isCompile,
              Event.isBackendCompile, e2, e3, h4]
        · rw [if_neg hf]
          refine ⟨[Event.Compile key depth, Event.Translate key] ++ T.2.2.2
            ++ [Event.CacheGet T.2.2.1.branch_target.key]
            ++ [Event.BackendCompile key, Event.CacheSet key], by simp, ?_, ?_, ?_⟩
          · intro k d hmem
            simp [e1] at hmem
            omega
          · simp [List.countP_append, List.countP_cons, Event.isCompile, e2]
          · simp [List.countP_append, List.countP_cons, Event.isCompile,
              Event.isBackendCompile, e2, e3]
      · rw [if_neg hv]
        refine ⟨[Event.Compile key depth, Event.Translate key] ++ T.2.2.2
          ++ [Event.BackendCompile key, Event.CacheSet key], by simp, ?_, ?_, ?_⟩
        · intro k d hmem
          simp [e1] at hmem
          omega
        · simp [List.countP_append, List.countP_cons, Event.isCompile, e2]
        · simp [List.countP_append, List.countP_cons, Event.isCompile,
            Event.isBackendCompile, e2, e3]
    · rw [if_neg hd]
      refine ⟨[Event.Compile key depth, Event.Translate key] ++ T.2.2.2
        ++ [Event.BackendCompile key, Event.CacheSet key], by simp, ?_, ?_, ?_⟩
      · intro k d hmem
        simp [e1] at hmem
        omega
      · simp [List.countP_append, List.countP_cons, Event.isCompile, e2]
      · simp [List.countP_append, List.countP_cons, Event.isCompile,
          Event.isBackendCompile, e2, e3]

/-- The record of calls after `Compile` when the block's branch target is
known, not cached, and the depth is at most 8: a nested `Compile` of the
target is made at `depth + 1`, between translation and code generation. -/
theorem Compile_nested_log (env : Collaborators) (key : BasicBlock.Key) (depth : Int)
    (jit : JIT) (hd : depth ≤ 8)
    (hv : (jit.translator.Translate env.handlers (BasicBlock.create key)
      jit.memory).2.2.1.branch_target.key.value ≠ 0)
    (hf : jit.block_cache.Get (jit.translator.Translate env.handlers (BasicBlock.create key)
      jit.memory).2.2.1.branch_target.key = none) :
    (JIT.Compile env key depth jit).2.log
      = (JIT.Compile env
          (jit.translator.Translate env.handlers (BasicBlock.create key)
            jit.memory).2.2.1.branch_target.key
          (depth + 1)
          { jit with
            translator :=
              (jit.translator.Translate env.handlers (BasicBlock.create key) jit.memory).2.1
            log := jit.log ++ [Event.Compile key depth] ++ [Event.Translate key]
              ++ (jit.translator.Translate env.handlers (BasicBlock.create key)
                jit.memory).2.2.2
              ++ [Event.CacheGet (jit.translator.Translate env.handlers (BasicBlock.create key)
                jit.memory).2.2.1.branch_target.key] }).2.log
        ++ [Event.BackendCompile key, Event.CacheSet key] := by
  rw [JIT.Compile]
  simp only []
  rw [if_pos hd, if_pos hv, hf]
  rfl

/-- The record of calls after `Compile` at a depth above 8: no nested call is
made. -/
theorem Compile_leaf_log (env : Collaborators) (key : BasicBlock.Key) (depth : Int)
    (jit : JIT) (hd : 8 < depth) :
    (JIT.Compile env key depth jit).2.log
      = jit.log ++ [Event.Compile key depth] ++ [Event.Translate key]
        ++ (jit.translator.Translate env.handlers (BasicBlock.create key) jit.memory).2.2.2
        ++ [Event.BackendCompile key, Event.CacheSet key] := by
  rw [JIT.Compile]
  simp only []
  rw [if_neg (by omega)]

/-- What `Translate` returns with the collaborators `Collaborators.chain` for
a new block at an even address where memory reads zero (a data-processing
instruction): success, and the branch target is the next word. -/
theorem Translate_chain (translator : Translator) (key : BasicBlock.Key) (memory : Memory)
    (heven : key.address % 2 = 0) (hmem : memory.FastRead key.address = 0) :
    translator.Translate Collaborators.chain.handlers (BasicBlock.create key) memory
      = (true, { mode := key.mode, emitter := some key },
          { BasicBlock.create key with
            branch_target :=
              { key := { address := (key.address + 4) % 2 ^ 32, mode := key.mode } } },
          [Event.MemoryFastRead key.address, Event.Decode 0]) := by
  have h : ¬ ((BasicBlock.create key).key.address &&& 1 ≠ 0) := by
    rw [Nat.and_one_is_mod]
    show ¬ (key.address % 2 ≠ 0)
    omega
  unfold Translator.Translate
  simp only [h, if_false]
  have hm : memory.FastRead (BasicBlock.create key).key.address = 0 := hmem
  rw [hm, decode_arm_dispatch]
  rfl

/-- With the collaborators `Collaborators.chain`, a memory that reads zero and
an empty block cache, `Compile` at a depth of `9 - n` enters `Compile` for
the block and for each of the `n` blocks that follow it, the last of them at
depth 9. -/
theorem Compile_chain_entries (n : Nat) :
    ∀ (key : BasicBlock.Key) (depth : Int) (jit : JIT), depth + n = 9 →
      key.address % 2 = 0 → key.address + 4 * (n + 1) < 2 ^ 32 →
      (∀ address, jit.memory.FastRead address = 0) →
      (∀ k, jit.block_cache.Get k = none) →
      (JIT.Compile Collaborators.chain key depth jit).2.log.filter Event.isCompile
        = jit.log.filter Event.isCompile
          ++ (List.range (n + 1)).map
            (fun j => Event.Compile { address := key.address + 4 * j, mode := key.mode }
              (depth + j)) := by
  induction n with
  | zero =>
    intro key depth jit hdepth heven hbound hmem hcache
    rw [Compile_leaf_log _ _ _ _ (by omega), Translate_chain _ _ _ heven (hmem _)]
    simp [Event.isCompile, List.range_succ]
  | succ n ih =>
    intro key depth jit hdepth heven hbound hmem hcache
    have hnext : (key.address + 4) % 2 ^ 32 = key.address + 4 := Nat.mod_eq_of_lt (by omega)
    have h := Compile_nested_log Collaborators.chain key depth jit (by omega)
      (by
        rw [Translate_chain _ _ _ heven (hmem _)]
        simp only [BasicBlock.Key.value, hnext]
        omega)
      (hcache _)
    rw [Translate_chain _ _ _ heven (hmem _)] at h
    simp only [hnext] at h
    have ih1 := ih { address := key.address + 4, mode := key.mode } (depth + 1)
      { jit with
        translator := { mode := key.mode, emitter := some key }
        log := jit.log ++ [Event.Compile key depth] ++ [Event.Translate key]
          ++ [Event.MemoryFastRead key.address, Event.Decode 0]
          ++ [Event.CacheGet { address := key.address + 4, mode := key.mode }] }
      (by push_cast at hdepth; omega)
      (by show (key.address + 4) % 2 = 0; omega)
      (by show key.address + 4 + 4 * (n + 1) < 2 ^ 32; omega)
      hmem hcache
    rw [h, List.filter_append, ih1]
    simp [Event.isCompile, List.range_succ_eq_map (n + 1), List.map_map]
    intro a _
    constructor <;> omega

/-- Claim C23, counterexample: with the collaborators `Collaborators.chain`
every block branches to the next word. A top-level `Compile` of the block at
`0x1000` at depth 0 on `JIT.sample` (empty cache) enters `Compile` ten times,
the last time at depth 9 for the block at `0x1024`: a nested call is made at
a depth greater than 8, and nine blocks are compiled beyond the requested
one, each handed to the backend's code generator. -/
theorem Compile_depth_bound_counterexample :
    (JIT.Compile Collaborators.chain { address := 0x1000, mode := 0x1F } 0
      JIT.sample).2.log.filter Event.isCompile
      = [Event.Compile { address := 0x1000, mode := 0x1F } 0,
          Event.Compile { address := 0x1004, mode := 0x1F } 1,
          Event.Compile { address := 0x1008, mode := 0x1F } 2,
          Event.Compile { address := 0x100C, mode := 0x1F } 3,
          Event.Compile { address := 0x1010, mode := 0x1F } 4,
          Event.Compile { address := 0x1014, mode := 0x1F } 5,
          Event.Compile { address := 0x1018, mode := 0x1F } 6,
          Event.Compile { address := 0x101C, mode := 0x1F } 7,
          Event.Compile { address := 0x1020, mode := 0x1F } 8,
          Event.Compile { address := 0x1024, mode := 0x1F } 9] ∧
    (∃ k d, Event.Compile k d ∈ (JIT.Compile Collaborators.chain
      { address := 0x1000, mode := 0x1F } 0 JIT.sample).2.log ∧ 8 < d) ∧
    (JIT.Compile Collaborators.chain { address := 0x1000, mode := 0x1F } 0
      JIT.sample).2.log.countP Event.isBackendCompile = 10 := by
  have h := Compile_chain_entries 9 { address := 0x1000, mode := 0x1F } 0 JIT.sample
    (by decide) (by decide) (by decide) (fun _ => rfl) (fun _ => rfl)
  have hlist : (JIT.Compile Collaborators.chain { address := 0x1000, mode := 0x1F } 0
      JIT.sample).2.log.filter Event.isCompile
      = [Event.Compile { address := 0x1000, mode := 0x1F } 0,
          Event.Compile { address := 0x1004, mode := 0x1F } 1,
          Event.Compile { address := 0x1008, mode := 0x1F } 2,
          Event.Compile { address := 0x100C, mode := 0x1F } 3,
          Event.Compile { address := 0x1010, mode := 0x1F } 4,
          Event.Compile { address := 0x1014, mode := 0x1F } 5,
          Event.Compile { address := 0x1018, mode := 0x1F } 6,
          Event.Compile { address := 0x101C, mode := 0x1F } 7,
          Event.Compile { address := 0x1020, mode := 0x1F } 8,
          Event.Compile { address := 0x1024, mode := 0x1F } 9] := by
    rw [h]
    decide
  refine ⟨hlist, ⟨{ address := 0x1024, mode := 0x1F }, 9, ?_, by decide⟩, ?_⟩
  · have hmem : Event.Compile { address := 0x1024, mode := 0x1F } 9
        ∈ (JIT.Compile Collaborators.chain { address := 0x1000, mode := 0x1F } 0
          JIT.sample).2.log.filter Event.isCompile := by
      rw [hlist]
      decide
    exact (List.mem_filter.mp hmem).1
  · obtain ⟨new, h1, -, -, h4⟩ := Compile_log_shape Collaborators.chain 9
      { address := 0x1000, mode := 0x1F } 0 JIT.sample (by decide)
    have h5 : (JIT.Compile Collaborators.chain { address := 0x1000, mode := 0x1F } 0
        JIT.sample).2.log = new := h1
    rw [h5] at hlist ⊢
    rw [h4, List.countP_eq_length_filter, hlist]
    rfl

/-- Claim C23 (amended): a top-level `Compile(key, 0)` returns, whatever the
collaborators and the CPU, and every entry into `Compile` it makes, nested
ones included, is at a depth from 0 to 9: no nested call is made at a depth
greater than 9. There are at most ten entries, so at most nine blocks are
compiled speculatively beyond the requested one, and each entry is matched
by one call of the backend's code generator. -/
theorem Compile_depth_bound (env : Collaborators) (key : BasicBlock.Key) (jit : JIT) :
    ∃ new, (JIT.Compile env key 0 jit).2.log = jit.log ++ new ∧
      (∀ k d, Event.Compile k d ∈ new → 0 ≤ d ∧ d ≤ 9) ∧
      new.countP Event.isCompile ≤ 10 ∧
      new.countP Event.isBackendCompile = new.countP Event.isCompile := by
  obtain ⟨new, h1, h2, h3, h4⟩ := Compile_log_shape env 9 key 0 jit (by decide)
  exact ⟨new, h1, fun k d hmem => by simpa using h2 k d hmem, by simpa using h3, h4⟩

/-- Claim C23 (amended), witness: the bound at the chain of blocks that
starts at `0x1000`, on `JIT.sample`. -/
theorem Compile_depth_bound_witness :
    ∃ new, (JIT.Compile Collaborators.chain { address := 0x1000, mode := 0x1F } 0
        JIT.sample).2.log = JIT.sample.log ++ new ∧
      (∀ k d, Event.Compile k d ∈ new → 0 ≤ d ∧ d ≤ 9) ∧
      new.countP Event.isCompile ≤ 10 ∧
      new.countP Event.isBackendCompile = new.countP Event.isCompile :=
  Compile_depth_bound Collaborators.chain { address := 0x1000, mode := 0x1F } JIT.sample

/-! ## The miscellaneous space and the masked interrupt -/

/-- The tests of the miscellaneous space, read on the nibble `W[7..4]` and the
pair `W[22..21]`. -/
theorem miscellaneous_tests (W : Nat) :
    W % 2 ^ 28 / 2 ^ 8 / 2 ^ 13 % 2 ^ 2 * 2 ^ 13 * 2 ^ 8
        + W % 2 ^ 28 % 2 ^ 8 / 2 ^ 4 % 2 ^ 4 * 2 ^ 4
      = (W / 2 ^ 21 % 2 ^ 2) * 2 ^ 21 + (W / 2 ^ 4 % 2 ^ 4) * 2 ^ 4 ∧
    W % 2 ^ 28 / 2 ^ 4 % 2 ^ 4 * 2 ^ 4 = (W / 2 ^ 4 % 2 ^ 4) * 2 ^ 4 ∧
    W % 2 ^ 28 / 2 ^ 5 / 2 ^ 2 % 2 ^ 1 * 2 ^ 2 * 2 ^ 5
        + W % 2 ^ 28 % 2 ^ 5 / 2 ^ 4 % 2 ^ 1 * 2 ^ 4
      = (W / 2 ^ 4 % 2 ^ 4 / 8) * 2 ^ 7 + (W / 2 ^ 4 % 2 ^ 4 % 2) * 2 ^ 4 := by
  have e1 : W % 2 ^ 28 / 2 ^ 8 / 2 ^ 13 % 2 ^ 2 = W / 2 ^ 21 % 2 ^ 2 := by omega
  have e2 : W % 2 ^ 28 % 2 ^ 8 / 2 ^ 4 % 2 ^ 4 = W / 2 ^ 4 % 2 ^ 4 := by omega
  have e3 : W % 2 ^ 28 / 2 ^ 4 % 2 ^ 4 = W / 2 ^ 4 % 2 ^ 4 := by omega
  have e4 : W % 2 ^ 28 / 2 ^ 5 / 2 ^ 2 % 2 ^ 1 = W / 2 ^ 4 % 2 ^ 4 / 8 := by omega
  have e5 : W % 2 ^ 28 % 2 ^ 5 / 2 ^ 4 % 2 ^ 1 = W / 2 ^ 4 % 2 ^ 4 % 2 := by omega
  rw [e1, e2, e3, e4, e5]
  exact ⟨by omega, rfl, by omega⟩

/-- Claim C24: a word with condition not `NV`, `W[27..25] = 000`, `W[20] = 0` and
`W[24..23] = 10` (the miscellaneous space) that matches none of the
miscellaneous patterns, namely `W[7..4] = 0001` with `W[22..21]` 00 or 10,
`W[7..4]` 0010, 0011 or 0111 with `W[22..21]` not 01, `W[7..4] = 0100`, or
`W[7..4] = 0110`, is not undefined: it falls through to `DataProcessing` with
`immediate = false`, `set_flags = false` and `opcode = W[24..21]`, whatever the
client. -/
theorem decode_arm_miscellaneous_fallthrough {T : Type} (client : ARMDecodeClient T) (W : Nat)
    (hc : bit.get_field W 28 4 ≠ Condition.NV)
    (hg : bit.get_field W 25 3 = 0b000)
    (hs : bit.get_flag W 20 = false)
    (h2423 : bit.get_field W 23 2 = 0b10)
    (hpat :
      (bit.get_field W 4 4 = 0b0001 ∧
        (bit.get_field W 21 2 = 0b00 ∨ bit.get_field W 21 2 = 0b10)) ∨
      ((bit.get_field W 4 4 = 0b0010 ∨ bit.get_field W 4 4 = 0b0011 ∨
          bit.get_field W 4 4 = 0b0111) ∧ bit.get_field W 21 2 ≠ 0b01) ∨
      bit.get_field W 4 4 = 0b0100 ∨
      bit.get_field W 4 4 = 0b0110) :
    decode_arm W client = client.HandleDataProcessing {
      condition := bit.get_field W 28 4
      opcode := bit.get_field W 21 4
      immediate := false
      set_flags := false
      reg_dst := bit.get_field W 12 4
      reg_op1 := bit.get_field W 16 4
      op2_reg := {
        reg := bit.get_field W 0 4
        shift := {
          type := bit.get_field W 5 2
          immediate := !bit.get_flag W 4
          amount_reg := bit.get_field W 8 4
          amount_imm := bit.get_field W 7 5 } }
      op2_imm := {
        value := bit.get_field W 0 8
        shift := 2 * bit.get_field W 8 4 } } ∧
    8 ≤ bit.get_field W 21 4 ∧ bit.get_field W 21 4 ≤ 11 := by
  simp only [get_field_eq, get_flag_eq, decide_eq_false_iff_not] at hc hg hs h2423 hpat
  refine ⟨?_, by simp only [get_field_eq]; omega, by simp only [get_field_eq]; omega⟩
  simp only [decode_arm, detail.decode_data_processing, get_field_eq, get_flag_eq,
    land_0x0FFFFFFF, land_bit20, land_0xF, land_0x90, land_0xF0_low, land_0x6000F0,
    Nat.shiftRight_eq_div_pow, bne_zero_eq_false]
  have himm : decide (W % 2 ^ 28 / 2 ^ 25 % 2 ^ 1 = 1) = false := by
    rw [decide_eq_false_iff_not]; omega
  have hsf : decide (W % 2 ^ 28 / 2 ^ 20 % 2 ^ 1 = 1) = false := by
    rw [decide_eq_false_iff_not]; omega
  have hsh : W % 2 ^ 28 / 2 ^ 8 % 2 ^ 4 * 2 % 2 ^ 32 = 2 * (W / 2 ^ 8 % 2 ^ 4) := by omega
  rw [if_neg hc, if_pos (by omega), if_neg (by omega), if_pos (by omega), himm, hsf, hsh]
  obtain ⟨t1, t2, t3⟩ := miscellaneous_tests W
  rw [t1, t2, t3]
  have hb : W / 2 ^ 21 % 2 ^ 2 < 4 := Nat.mod_lt _ (by decide)
  generalize W / 2 ^ 21 % 2 ^ 2 = b at hpat hb ⊢
  have ha : W / 2 ^ 4 % 2 ^ 4 < 16 := Nat.mod_lt _ (by decide)
  generalize hA : W / 2 ^ 4 % 2 ^ 4 = a at hpat ha ⊢
  rw [if_neg (by omega), if_neg (by omega), if_neg (by omega), if_neg (by omega)]
  rw [if_neg (by omega), if_neg (by omega), if_neg (by omega), if_neg (by omega)]
  subst hA
  simp (disch := decide) only [field_of_opcode]
/-- Claim C24, witness: `0xE1000060` (sub-opcode 8, `W[7..4] = 0110`) decodes to a
`DataProcessing` descriptor with opcode 8 (`TST`), `immediate = false` and
`set_flags = false`. -/
theorem decode_arm_miscellaneous_fallthrough_witness :
    (bit.get_field 0xE1000060 28 4 ≠ Condition.NV ∧ bit.get_field 0xE1000060 25 3 = 0b000 ∧
      bit.get_flag 0xE1000060 20 = false ∧ bit.get_field 0xE1000060 23 2 = 0b10 ∧
      bit.get_field 0xE1000060 4 4 = 0b0110) ∧
    decode_arm 0xE1000060 recorder = Decoded.DataProcessing {
      condition := Condition.AL
      opcode := 8
      immediate := false
      set_flags := false
      reg_dst := 0
      reg_op1 := 0
      op2_reg := {
        reg := 0
        shift := { type := 3, immediate := true, amount_reg := 0, amount_imm := 0 } }
      op2_imm := { value := 0x60, shift := 0 } } :=
  ⟨⟨by decide, by decide, by decide, by decide, by decide⟩,
    (decode_arm_miscellaneous_fallthrough recorder 0xE1000060 (by decide) (by decide)
      (by decide) (by decide) (Or.inr (Or.inr (Or.inr (by decide))))).1.trans (by decide)⟩

/-- In a state where the CPSR IRQ mask is set, `SignalIRQ` clears the IRQ-wait
flag and does nothing else. -/
theorem SignalIRQ_of_mask (jit : JIT) (hmask : jit.GetCPSR.mask_irq = true) :
    jit.SignalIRQ = { jit with wait_for_irq := false } := by
  simp only [JIT.GetCPSR, State.GetCPSR] at hmask
  simp [JIT.SignalIRQ, State.GetCPSR, hmask]

/-- What `Compile` leaves as it was: the IRQ line, the IRQ-wait flag, the cycle
budget, the exception base, the memory and the guest state. -/
theorem Compile_frame (env : Collaborators) (n : Nat) :
    ∀ (key : BasicBlock.Key) (depth : Int) (jit : JIT), (9 - depth).toNat ≤ n →
      (JIT.Compile env key depth jit).2.irq_line = jit.irq_line ∧
      (JIT.Compile env key depth jit).2.wait_for_irq = jit.wait_for_irq ∧
      (JIT.Compile env key depth jit).2.cycles_to_run = jit.cycles_to_run ∧
      (JIT.Compile env key depth jit).2.exception_base = jit.exception_base ∧
      (JIT.Compile env key depth jit).2.state = jit.state := by
  induction n with
  | zero =>
    intro key depth jit hn
    rw [JIT.Compile]
    simp only []
    rw [if_neg (by omega)]
    exact ⟨rfl, rfl, rfl, rfl, rfl⟩
  | succ n ih =>
    intro key depth jit hn
    rw [JIT.Compile]
    simp only []
    split_ifs with hd hv hf
    · obtain ⟨h1, h2, h3, h4, h5⟩ := ih
        (jit.translator.Translate env.handlers (BasicBlock.create key)
          jit.memory).2.2.1.branch_target.key (depth + 1)
        { jit with
          translator :=
            (jit.translator.Translate env.handlers (BasicBlock.create key) jit.memory).2.1
          log := jit.log ++ [Event.Compile key depth] ++ [Event.Translate key]
            ++ (jit.translator.Translate env.handlers (BasicBlock.create key)
              jit.memory).2.2.2
            ++ [Event.CacheGet (jit.translator.Translate env.handlers
              (BasicBlock.create key) jit.memory).2.2.1.branch_target.key] } (by omega)
      exact ⟨h1, h2, h3, h4, h5⟩
    · exact ⟨rfl, rfl, rfl, rfl, rfl⟩
    · exact ⟨rfl, rfl, rfl, rfl, rfl⟩
    · exact ⟨rfl, rfl, rfl, rfl, rfl⟩

/-- One iteration of the loop of `Run` on a CPU with the CPSR IRQ mask set, the
IRQ line asserted and budget left: `SignalIRQ` is invoked and clears the
IRQ-wait flag, so that the block is looked up, compiled and executed on a CPU
that is not waiting and whose guest state is as before. -/
theorem Run_loop_masked_irq (env : Collaborators) (start_cycles : Int) (fuel : Nat) (jit : JIT)
    (hmask : jit.GetCPSR.mask_irq = true) (hline : jit.IRQLine = true)
    (hpos : 0 < jit.cycles_to_run) :
    JIT.Run.loop env start_cycles (fuel + 1) jit
      = (let block_key := env.KeyOfState jit.state
        let woken : JIT := { jit with
          wait_for_irq := false
          log := jit.log ++ [Event.CacheGet block_key] }
        let compiled :=
          match jit.block_cache.Get block_key with
          | none => JIT.Compile env block_key 0 woken
          | some basic_block => (basic_block, woken)
        let called := env.BackendCall compiled.1 jit.cycles_to_run
          { irq_line := true, wait_for_irq := false, state := jit.state,
            block_cache := compiled.2.block_cache }
        let after : JIT := { compiled.2 with
          irq_line := called.2.irq_line
          wait_for_irq := called.2.wait_for_irq
          state := called.2.state
          block_cache := called.2.block_cache
          cycles_to_run := called.1
          log := compiled.2.log ++ [Event.BackendCall compiled.1.key jit.cycles_to_run] }
        if after.wait_for_irq then
          some (int_wrap (start_cycles - after.cycles_to_run), { after with cycles_to_run := 0 })
        else
          JIT.Run.loop env start_cycles fuel after) := by
  have hl : jit.irq_line = true := hline
  rw [JIT.Run.loop]
  simp only [gt_iff_lt, hpos, if_true, hline, SignalIRQ_of_mask jit hmask, JIT.IsWaitingForIRQ]
  cases hget : jit.block_cache.Get (env.KeyOfState jit.state) with
  | none =>
    obtain ⟨h1, h2, h3, -, h5⟩ := Compile_frame env 9 (env.KeyOfState jit.state) 0
      { jit with
        wait_for_irq := false
        log := jit.log ++ [Event.CacheGet (env.KeyOfState jit.state)] } (by decide)
    simp only [h1, h2, h3, h5]
    simp only [hl]
  | some basic_block =>
    simp only [hl]

/-- Claim C25, counterexample: the CPU `JIT.sample` with the CPSR IRQ mask set
has its IRQ line asserted and is waiting for an IRQ. `Run(0)` on it, and
`Run(2)` on it with a budget of `-3` left over, return 0 with the CPU still
waiting and with no call made: the budget is not positive, the loop is not
entered and `SignalIRQ` is not invoked although the IRQ line is asserted. -/
theorem Run_masked_irq_counterexample :
    (JIT.sample.SetCPSR { JIT.sample.GetCPSR with mask_irq := true }).GetCPSR.mask_irq
      = true ∧
    (JIT.sample.SetCPSR { JIT.sample.GetCPSR with mask_irq := true }).IRQLine = true ∧
    (JIT.sample.SetCPSR { JIT.sample.GetCPSR with mask_irq := true }).IsWaitingForIRQ
      = true ∧
    (JIT.Run Collaborators.sample 1 0
      (JIT.sample.SetCPSR { JIT.sample.GetCPSR with mask_irq := true })).map
        (fun r => (r.1, r.2.IsWaitingForIRQ, r.2.log)) = some (0, true, []) ∧
    (JIT.Run Collaborators.sample 1 2
      { JIT.sample.SetCPSR { JIT.sample.GetCPSR with mask_irq := true } with
        cycles_to_run := -3 }).map
        (fun r => (r.1, r.2.IsWaitingForIRQ, r.2.log)) = some (0, true, []) :=
  ⟨rfl, rfl, rfl, rfl, rfl⟩

/-- Claim C25 (amended): in a state where the CPSR IRQ mask is set, `SignalIRQ`
only clears the IRQ-wait flag: the CPSR, every SPSR and every general-purpose
register of every mode (PC and LR included) are unchanged. `Run` invokes it
at the head of an iteration of its loop when the IRQ line is asserted, that
is, only while the cycle budget is positive. With a positive budget the
asserted but masked IRQ wakes the CPU: the block is looked up, compiled and
handed to `backend.Call` on a CPU that is not waiting and whose guest state
is as before, and an iteration that starts on the waiting CPU is the one
that starts on the CPU not waiting. With a budget that is not positive `Run`
returns 0 at once and leaves the CPU as it was, the IRQ-wait flag included. -/
theorem SignalIRQ_masked (jit : JIT) (hmask : jit.GetCPSR.mask_irq = true) :
    jit.SignalIRQ = { jit with wait_for_irq := false } ∧
    jit.SignalIRQ.GetCPSR = jit.GetCPSR ∧
    (∀ mode, jit.SignalIRQ.GetSPSR mode = jit.GetSPSR mode) ∧
    (∀ reg mode, jit.SignalIRQ.GetGPR reg mode = jit.GetGPR reg mode) ∧
    jit.SignalIRQ.wait_for_irq = false ∧
    (∀ env fuel cycles, jit.IRQLine = true → 0 < int_wrap (jit.cycles_to_run + cycles) →
      JIT.Run env (fuel + 1) cycles jit
        = (let budget := int_wrap (jit.cycles_to_run + cycles)
          let block_key := env.KeyOfState jit.state
          let woken : JIT := { jit with
            wait_for_irq := false
            cycles_to_run := budget
            log := jit.log ++ [Event.CacheGet block_key] }
          let compiled :=
            match jit.block_cache.Get block_key with
            | none => JIT.Compile env block_key 0 woken
            | some basic_block => (basic_block, woken)
          let called := env.BackendCall compiled.1 budget
            { irq_line := true, wait_for_irq := false, state := jit.state,
              block_cache := compiled.2.block_cache }
          let after : JIT := { compiled.2 with
            irq_line := called.2.irq_line
            wait_for_irq := called.2.wait_for_irq
            state := called.2.state
            block_cache := called.2.block_cache
            cycles_to_run := called.1
            log := compiled.2.log ++ [Event.BackendCall compiled.1.key budget] }
          if after.wait_for_irq then
            some (int_wrap (budget - after.cycles_to_run), { after with cycles_to_run := 0 })
          else
            JIT.Run.loop env budget fuel after)) ∧
    (∀ env start_cycles fuel budget, jit.IRQLine = true → 0 < budget →
      JIT.Run.loop env start_cycles (fuel + 1) { jit with cycles_to_run := budget }
        = JIT.Run.loop env start_cycles (fuel + 1)
            { jit with wait_for_irq := false, cycles_to_run := budget }) ∧
    (∀ env fuel cycles, jit.IRQLine = true → int_wrap (jit.cycles_to_run + cycles) ≤ 0 →
      JIT.Run env fuel cycles jit
        = some (0, { jit with cycles_to_run := int_wrap (jit.cycles_to_run + cycles) })) := by
  have e := SignalIRQ_of_mask jit hmask
  refine ⟨e, ?_, ?_, ?_, ?_, ?_, ?_, ?_⟩
  · rw [e]; rfl
  · intro mode; rw [e]; rfl
  · intro reg mode; rw [e]; rfl
  · rw [e]
  · intro env fuel cycles hline hpos
    unfold JIT.Run
    rw [if_neg (by rw [hline]; simp)]
    exact Run_loop_masked_irq env _ fuel
      { jit with cycles_to_run := int_wrap (jit.cycles_to_run + cycles) } hmask hline hpos
  · intro env start_cycles fuel budget hline hpos
    rw [Run_loop_masked_irq env start_cycles fuel { jit with cycles_to_run := budget }
        hmask hline hpos,
      Run_loop_masked_irq env start_cycles fuel
        { jit with wait_for_irq := false, cycles_to_run := budget } hmask hline hpos]
  · intro env fuel cycles hline hneg
    unfold JIT.Run
    rw [if_neg (by rw [hline]; simp)]
    simp only []
    have hb : ¬ int_wrap (jit.cycles_to_run + cycles) > 0 := by omega
    cases fuel <;> rw [JIT.Run.loop] <;> simp only [hb, if_false, sub_self] <;> rfl

/-- Claim C25 (amended), witness: the CPU `JIT.sample` with the IRQ mask set is
waiting for an IRQ with the line asserted. `SignalIRQ` leaves PC at `0x1008`
and the CPSR in mode `0x1F` and clears the IRQ-wait flag, and `Run(100)`
looks up, compiles and executes the block at `0x1008` and returns 100 with
the CPU not waiting. -/
theorem SignalIRQ_masked_witness :
    ((JIT.sample.SetCPSR { JIT.sample.GetCPSR with mask_irq := true }).GetCPSR.mask_irq
        = true ∧
      (JIT.sample.SetCPSR { JIT.sample.GetCPSR with mask_irq := true }).IRQLine = true ∧
      0 < int_wrap
        ((JIT.sample.SetCPSR { JIT.sample.GetCPSR with mask_irq := true }).cycles_to_run
          + 100)) ∧
    (JIT.sample.SetCPSR { JIT.sample.GetCPSR with mask_irq := true }).wait_for_irq = true ∧
    (JIT.sample.SetCPSR { JIT.sample.GetCPSR with mask_irq := true }).SignalIRQ.wait_for_irq
      = false ∧
    (JIT.sample.SetCPSR { JIT.sample.GetCPSR with mask_irq := true }).SignalIRQ.GetGPR_current
      GPR.PC = 0x1008 ∧
    (JIT.sample.SetCPSR { JIT.sample.GetCPSR with mask_irq := true }).SignalIRQ.GetCPSR.mode
      = 0x1F ∧
    (JIT.Run Collaborators.sample 1 100
      (JIT.sample.SetCPSR { JIT.sample.GetCPSR with mask_irq := true })).map
        (fun r => (r.1, r.2.IsWaitingForIRQ, r.2.GetGPR_current GPR.PC, r.2.log))
      = some (100, false, 0x1008,
          [Event.CacheGet { address := 0x1008, mode := 0x1F },
            Event.Compile { address := 0x1008, mode := 0x1F } 0,
            Event.Translate { address := 0x1008, mode := 0x1F },
            Event.MemoryFastRead 0x1008, Event.Decode 0,
            Event.BackendCompile { address := 0x1008, mode := 0x1F },
            Event.CacheSet { address := 0x1008, mode := 0x1F },
            Event.BackendCall { address := 0x1008, mode := 0x1F } 100]) := by
  have h := SignalIRQ_masked (JIT.sample.SetCPSR { JIT.sample.GetCPSR with mask_irq := true }) rfl
  refine ⟨⟨rfl, rfl, by decide⟩, rfl, h.2.2.2.2.1, ?_, ?_, ?_⟩
  · rw [h.1]; decide
  · rw [h.2.1]; rfl
  · rw [h.2.2.2.2.2.1 Collaborators.sample 0 100 rfl (by decide)]
    simp only []
    rw [Compile_of_untouched_block Collaborators.sample _ 0 _ (by decide)]
    rfl

end lunatic
